import Mathlib

/-!
# Yunikorn batch scheduler of the Spark operator: resource usage and task groups

A shallow embedding of `pkg/batchscheduler/yunikorn` (`yunikorn_resource_usage.go`,
`yunikorn_scheduler.go`, `utils.go`).

* Strings are Lean strings; the matching code works on their character lists.
* `resource.Quantity` is an exact amount (an integer number of nano-units) with a format.
* The package-level variables that hold `*resource.Quantity` values are an explicit
  state (`Globals`), and a `*resource.Quantity` is a `QuantityPtr`: Go code that adds
  through such a pointer updates the variable it points at.
* A function that updates the application in place returns the updated application. The
  maps of the driver and of the executor are distinct objects, as they are in a decoded
  application.
* `float64` is embedded as IEEE 754 binary64 with round-to-nearest-even (`Float64`). What
  the code takes from outside and what Go leaves to the implementation are the fields of
  `Numerics` (`strconv.ParseFloat`, and the conversions of values outside the range of
  `int64`); the general theorems hold for every value of that structure, and
  `exampleNumerics` is one value, used to run the definitions on examples.
-/

namespace Yunikorn

/-! ## resource.Quantity -/

/-- The formats of `resource.Quantity`. `Format` is a string type in Go: `Unset` is its
zero value, the format of `resource.Quantity{}`. -/
inductive Format where
  | Unset
  | DecimalExponent
  | BinarySI
  | DecimalSI
  deriving DecidableEq, Repr

/-- Modelled from the spec: `resource.Quantity` of k8s.io/apimachinery is not part of the
repository; the spec calls it an exact, base-aware numeric quantity with parse, add, compare
and canonical formatting. The amount is kept exactly, as a number of nano-units (the finest
scale the library stores), together with the format used when it is printed. -/
structure Quantity where
  nano : Int
  Format : Format
  deriving DecidableEq, Repr

/-- The largest amount `ParseQuantity` returns for a binary suffix: `1<<63 - 1`. -/
def maxAllowed : Int := 2 ^ 63 - 1

/-- `resource.NewQuantity(value, format)`: `value` whole units. -/
def NewQuantity (value : Int) (format : Format) : Quantity :=
  { nano := value * 10 ^ 9, Format := format }

/-- `resource.NewMilliQuantity(value, format)`: `value` thousandths of a unit. -/
def NewMilliQuantity (value : Int) (format : Format) : Quantity :=
  { nano := value * 10 ^ 6, Format := format }

/-- `q.Add(y)`: exact addition; a receiver that is zero takes the format of `y`. -/
def Quantity.Add (q y : Quantity) : Quantity :=
  { nano := q.nano + y.nano, Format := if q.nano = 0 then y.Format else q.Format }

/-- `q.Cmp(y)`: `-1`, `0` or `1`. -/
def Quantity.Cmp (q y : Quantity) : Int :=
  if q.nano < y.nano then -1 else if q.nano = y.nano then 0 else 1

/-- The errors the package returns. `parseError` is the `fmt.Errorf` of
`parseJavaMemoryString` (its message is the argument), `quantityError` an error of
`resource.ParseQuantity`, `numError` the error of `strconv.ParseFloat` on the given input,
and `wrapped ctx e` is `fmt.Errorf(ctx + ": %w", e)`. -/
inductive Error where
  | parseError (msg : String)
  | quantityError (msg : String)
  | numError (input : String)
  | wrapped (ctx : String) (inner : Error)
  deriving DecidableEq, Repr

deriving instance DecidableEq for Except

/-- The character class `[0-9]`. -/
def isDigit (c : Char) : Bool := decide (48 ≤ c.toNat ∧ c.toNat ≤ 57)

/-- The character class `[a-z]`. -/
def isLowerAZ (c : Char) : Bool := decide (97 ≤ c.toNat ∧ c.toNat ≤ 122)

/-- The number a string of decimal digits writes. -/
def digitsValue (ds : List Char) : Nat :=
  ds.foldl (fun acc c => 10 * acc + (c.toNat - 48)) 0

/-- The suffixes of `resource.ParseQuantity` that `javaMemorySuffixToScale` can produce:
the empty suffix is `DecimalSI` with exponent 0, and `Ki` .. `Pi` are `BinarySI` with
binary exponents 10 .. 50. -/
def interpretSuffix (suf : List Char) : Option (Format × Nat) :=
  if suf = [] then some (Format.DecimalSI, 0)
  else if suf = ['K', 'i'] then some (Format.BinarySI, 10)
  else if suf = ['M', 'i'] then some (Format.BinarySI, 20)
  else if suf = ['G', 'i'] then some (Format.BinarySI, 30)
  else if suf = ['T', 'i'] then some (Format.BinarySI, 40)
  else if suf = ['P', 'i'] then some (Format.BinarySI, 50)
  else none

/-- Modelled from the spec: `resource.ParseQuantity` is library code outside the
repository (k8s.io/apimachinery, `pkg/api/resource/quantity.go`); this is its work on the
text after the optional sign. The model covers the arguments `parseJavaMemoryString` builds, a
decimal number (`digits` or `digits.digits`) followed by one of the scale strings of
`javaMemorySuffixToScale`. The amount is the number times two to the suffix exponent,
rounded up to a whole number of nano-units. As in the library, whose last steps are "a simple
cap" of a `BinarySI` amount above `maxAllowed` to `maxAllowed` and the change of a non-zero
`BinarySI` amount below 1 to `DecimalSI` (its tests expect `9223372036854775807Ki` and `9Ei`
to parse to the maximum), the amount with a binary suffix never exceeds `maxAllowed`; the
empty suffix is `DecimalSI` and is not capped. Any other text (exponent, decimal SI suffix)
is outside the model and reported as a format error. -/
def parseUnsignedQuantity (str : List Char) : Except Error Quantity :=
  let num := str.takeWhile isDigit
  let rest := str.dropWhile isDigit
  let denom := if rest.head? = some '.' then rest.tail.takeWhile isDigit else []
  let suf := if rest.head? = some '.' then rest.tail.dropWhile isDigit else rest
  if num = [] ∧ denom = [] then
    .error (.quantityError "quantities must match the regular expression")
  else
    match interpretSuffix suf with
    | none => .error (.quantityError "unable to parse quantity's suffix")
    | some (format, exponent) =>
      let scaled : Int := (digitsValue (num ++ denom) : Int) * 2 ^ exponent * 10 ^ 9
      let amount : Int := - ((- scaled) / (10 ^ denom.length : Int))
      let capped : Int :=
        if format = Format.BinarySI ∧ maxAllowed * 10 ^ 9 < amount then maxAllowed * 10 ^ 9
        else amount
      let format := if format = Format.BinarySI ∧ 0 < capped ∧ capped < 10 ^ 9
        then Format.DecimalSI else format
      .ok { nano := capped, Format := format }

/-- Modelled from the spec: `resource.ParseQuantity`, library code outside the repository.
As in the library, a leading `-` or `+` is read first, the rest is parsed as a magnitude
(`parseUnsignedQuantity`), and a leading `-` makes the result negative. -/
def ParseQuantity (str : List Char) : Except Error Quantity :=
  let body := if str.head? = some '-' ∨ str.head? = some '+' then str.tail else str
  match parseUnsignedQuantity body with
  | .error err => .error err
  | .ok q => if str.head? = some '-' then .ok { q with nano := - q.nano } else .ok q

/-! ## parseJavaMemoryString -/

/-- `strings.ToLower` on one character: ASCII capitals, and the two other characters whose
lower case is an ASCII letter (the Kelvin sign and the dotted capital I). Other characters
outside ASCII are left as they are: their lower case is never in `[0-9a-z.]`. -/
def toLowerChar (c : Char) : Char :=
  if c.toNat = 8490 then 'k'
  else if c.toNat = 304 then 'i'
  else c.toLower

/-- `strings.ToLower`. -/
def ToLower (s : List Char) : List Char := s.map toLowerChar

/-- The table `javaMemorySuffixToScale`. -/
def javaMemorySuffixToScaleTable : List (String × String) :=
  [("b", ""), ("kb", "Ki"), ("k", "Ki"), ("mb", "Mi"), ("m", "Mi"), ("gb", "Gi"),
   ("g", "Gi"), ("tb", "Ti"), ("t", "Ti"), ("pb", "Pi"), ("p", "Pi")]

/-- The map lookup `javaMemorySuffixToScale[suffix]`: `none` when the key is not present. -/
def javaMemorySuffixToScale (suffix : String) : Option String :=
  javaMemorySuffixToScaleTable.lookup suffix

/-- `javaStringPattern.FindStringSubmatch`, for the pattern `([0-9]+)([a-z]+)?`. The
pattern is not anchored: the match starts at the first digit of the string, group 1 is the
run of digits from there and group 2 the run of `[a-z]` that follows (empty when the group
does not take part). The result is `(matches[1], matches[2])`, `none` when nothing
matches. -/
def javaStringPattern : List Char → Option (List Char × List Char)
  | [] => none
  | c :: cs =>
    if isDigit c then
      some ((c :: cs).takeWhile isDigit, ((c :: cs).dropWhile isDigit).takeWhile isLowerAZ)
    else javaStringPattern cs

/-- A match of `([0-9]+\.[0-9]+)([a-z]+)?` that starts at the head of the list. -/
def fractionMatchAt (s : List Char) : Option (List Char × List Char) :=
  let r := (s.dropWhile isDigit).tail
  if (s.dropWhile isDigit).head? = some '.' ∧
      s.takeWhile isDigit ≠ [] ∧ r.takeWhile isDigit ≠ [] then
    some (s.takeWhile isDigit ++ '.' :: r.takeWhile isDigit,
      (r.dropWhile isDigit).takeWhile isLowerAZ)
  else none

/-- `javaFractionStringPattern.FindStringSubmatch`, for the pattern
`([0-9]+\.[0-9]+)([a-z]+)?`: the leftmost match, as `(matches[1], matches[2])`. -/
def javaFractionStringPattern : List Char → Option (List Char × List Char)
  | [] => none
  | c :: cs =>
    match fractionMatchAt (c :: cs) with
    | some m => some m
    | none => javaFractionStringPattern cs

/-- The message of the error `parseJavaMemoryString` returns for `str`. -/
def javaMemoryErrorMessage (str : String) : String :=
  "could not parse string '" ++ str ++
    "' as a Java-style memory value. Examples: 100kb, 1.5mb, 1g"

/-- `parseJavaMemoryString`. The fraction pattern is only tried when the integer pattern
does not match at all, as in the `if ... else if` of the source. -/
def parseJavaMemoryString (str : String) : Except Error Quantity :=
  let lower := ToLower str.toList
  match javaStringPattern lower with
  | some (value, suffix) =>
    match javaMemorySuffixToScale (String.mk suffix) with
    | some scale => ParseQuantity (value ++ scale.toList)
    | none => .error (.parseError (javaMemoryErrorMessage str))
  | none =>
    match javaFractionStringPattern lower with
    | some (value, suffix) =>
      match javaMemorySuffixToScale (String.mk suffix) with
      | some scale => ParseQuantity (value ++ scale.toList)
      | none => .error (.parseError (javaMemoryErrorMessage str))
    | none => .error (.parseError (javaMemoryErrorMessage str))

/-- The power of 1024 the spec gives for a recognised suffix: b is 0, k and kb 1, m and mb 2,
g and gb 3, t and tb 4, p and pb 5. -/
def suffixPowerTable : List (String × Nat) :=
  [("b", 0), ("kb", 1), ("k", 1), ("mb", 2), ("m", 2), ("gb", 3),
   ("g", 3), ("tb", 4), ("t", 4), ("pb", 5), ("p", 5)]


/-! ## Canonical printing of a quantity -/

/-- `removeInt64Factors` / `removeBigIntFactors`: divide `n` by `base` while the result
stays a multiple of `base` and at least `base`; returns the quotient and the number of
divisions. `fuel` bounds the number of steps. -/
def removeFactors (base : Nat) : Nat → Nat → Nat × Nat
  | 0, n => (n, 0)
  | fuel + 1, n =>
    if base ≤ n ∧ n % base = 0 then
      ((removeFactors base fuel (n / base)).1, (removeFactors base fuel (n / base)).2 + 1)
    else (n, 0)

/-- The decimal digits of a natural number, most significant first. -/
def natDigits : Nat → Nat → List Char
  | 0, _ => []
  | fuel + 1, n =>
    if n < 10 then [Char.ofNat (48 + n)]
    else natDigits fuel (n / 10) ++ [Char.ofNat (48 + n % 10)]

/-- `strconv.AppendInt(_, n, 10)` for a natural number. -/
def natString (n : Nat) : List Char := natDigits (n + 1) n

/-- `strconv.AppendInt(_, n, 10)`. -/
def intString (n : Int) : List Char :=
  if n < 0 then '-' :: natString n.natAbs else natString n.natAbs

/-- The decimal SI suffix of a power of ten that is a multiple of three, from `n` (-9) to
`E` (18); the library has no suffix for other exponents and prints none. -/
def decimalSuffix (exponent : Int) : List Char :=
  if exponent = -9 then ['n'] else if exponent = -6 then ['u']
  else if exponent = -3 then ['m'] else if exponent = 3 then ['k']
  else if exponent = 6 then ['M'] else if exponent = 9 then ['G']
  else if exponent = 12 then ['T'] else if exponent = 15 then ['P']
  else if exponent = 18 then ['E'] else []

/-- The binary SI suffix of `1024 ^ times`, from `Ki` to `Ei`. -/
def binarySuffix (times : Nat) : List Char :=
  if times = 1 then ['K', 'i'] else if times = 2 then ['M', 'i']
  else if times = 3 then ['G', 'i'] else if times = 4 then ['T', 'i']
  else if times = 5 then ['P', 'i'] else if times = 6 then ['E', 'i'] else []

/-- The sign of `n` put back on a magnitude. -/
def withSign (n : Int) (magnitude : Nat) : Int :=
  if n < 0 then - (magnitude : Int) else magnitude

/-- Modelled from the spec: the canonical string of a quantity (`Quantity.String`, through
`CanonicalizeBytes`) is library code outside the repository. Zero prints as `0`. A
`BinarySI` amount that is a whole number of units of magnitude at least 1024 prints as a
multiple of the largest power of 1024 that divides it; every other amount prints in decimal:
mantissa without trailing zeros, exponent lowered to a multiple of three, as an SI suffix for
`DecimalSI` and as `e<exponent>` otherwise. -/
def Quantity.String (q : Quantity) : String :=
  if q.nano = 0 then "0"
  else
    let binary : Bool := decide (q.Format = Format.BinarySI ∧
      ¬ (-1024 * 10 ^ 9 < q.nano ∧ q.nano < 1024 * 10 ^ 9) ∧ q.nano % 10 ^ 9 = 0)
    if binary then
      let units : Nat := (q.nano / 10 ^ 9).natAbs
      let r := removeFactors 1024 units units
      String.mk (intString (withSign q.nano r.1) ++ binarySuffix r.2)
    else
      let r := removeFactors 10 q.nano.natAbs q.nano.natAbs
      let exponent : Int := (r.2 : Int) - 9
      let shift : Nat := ((exponent + 9) % 3).toNat
      let number := intString (withSign q.nano (r.1 * 10 ^ shift))
      if q.Format = Format.BinarySI ∨ q.Format = Format.DecimalSI then
        String.mk (number ++ decimalSuffix (exponent - shift))
      else if exponent - shift = 0 then String.mk number
      else String.mk (number ++ 'e' :: intString (exponent - shift))

/-! ## Go maps with string keys -/

/-- A Go `map[string]string` as an association list; the value of a key is that of its first
entry. A field of map type is `Option StringMap`: `none` is the nil map. -/
abbrev StringMap := List (String × String)

/-- The assignment `m[k] = v`: the entry of `k` is overwritten in place, or added. -/
def StringMap.set (k v : String) : StringMap → StringMap
  | [] => [(k, v)]
  | (a, b) :: m => if a = k then (k, v) :: m else (a, b) :: StringMap.set k v m

/-- `maps.Copy(dst, src)`: every key of `src` is assigned in `dst`. -/
def StringMap.copy (dst src : StringMap) : StringMap :=
  src.foldr (fun kv out => StringMap.set kv.1 kv.2 out) dst

/-- Reading a possibly nil map: `m[k]` with the `ok` flag. -/
def getKey (m : Option StringMap) (k : String) : Option String :=
  match m with
  | none => none
  | some entries => entries.lookup k

/-- `mergeMaps` of `utils.go`. -/
def mergeMaps (m1 m2 : Option StringMap) : Option StringMap :=
  let out : StringMap := []
  let out := StringMap.copy out (m1.getD [])
  let out := StringMap.copy out (m2.getD [])
  if out.length = 0 then none else some out

/-! ## The workload spec -/

/-- `corev1.ResourceCPU`. -/
def ResourceCPU : String := "cpu"

/-- `corev1.ResourceMemory`. -/
def ResourceMemory : String := "memory"

/-- `corev1.Container`, reduced to the field the package reads:
`Resources.Requests`. -/
structure Container where
  Requests : List (String × Quantity)
  deriving DecidableEq, Repr

/-- `corev1.Toleration`. -/
structure Toleration where
  Key : String
  Operator : String
  Value : String
  Effect : String
  TolerationSeconds : Option Int
  deriving DecidableEq, Repr

/-- `corev1.Affinity`: the package only copies the pointer into the task group, so the value
is kept as its JSON encoding. -/
structure Affinity where
  encoded : String
  deriving DecidableEq, Repr

/-- `v1beta2.SparkPodSpec`, the fields the package uses. `Cores` is a `*int32`. -/
structure SparkPodSpec where
  Cores : Option Int
  Memory : Option String
  MemoryOverhead : Option String
  Sidecars : List Container
  NodeSelector : Option StringMap
  Tolerations : List Toleration
  Affinity : Option Affinity
  Labels : Option StringMap
  Annotations : Option StringMap
  deriving DecidableEq, Repr

/-- `v1beta2.DriverSpec`. -/
structure DriverSpec where
  SparkPodSpec : SparkPodSpec
  deriving DecidableEq, Repr

/-- `v1beta2.ExecutorSpec`; `Instances` is a `*int32`. -/
structure ExecutorSpec where
  SparkPodSpec : SparkPodSpec
  Instances : Option Int
  deriving DecidableEq, Repr

/-- `v1beta2.DynamicAllocation`; the three counts are `*int32`. -/
structure DynamicAllocation where
  InitialExecutors : Option Int
  MinExecutors : Option Int
  MaxExecutors : Option Int
  deriving DecidableEq, Repr

/-- `v1beta2.BatchSchedulerConfiguration`. -/
structure BatchSchedulerConfiguration where
  Queue : Option String
  deriving DecidableEq, Repr

/-- `v1beta2.SparkApplicationSpec`; `Type_` is the field `Type`, a `SparkApplicationType` string. -/
structure SparkApplicationSpec where
  Type_ : String
  MemoryOverheadFactor : Option String
  NodeSelector : Option StringMap
  DynamicAllocation : Option DynamicAllocation
  BatchSchedulerOptions : Option BatchSchedulerConfiguration
  Driver : DriverSpec
  Executor : ExecutorSpec
  deriving DecidableEq, Repr

/-- `v1beta2.SparkApplication`. -/
structure SparkApplication where
  Spec : SparkApplicationSpec
  deriving DecidableEq, Repr

/-- `v1beta2.JavaApplicationType`. -/
def JavaApplicationType : String := "Java"

/-! ## Package-level variables and pointers to quantities -/

/-- The package-level variables of type `*resource.Quantity` that the code hands out as
pointers: the quantity each one points at. -/
structure Globals where
  defaultCpuMillicores : Quantity
  defaultMemoryBytes : Quantity
  deriving DecidableEq, Repr

/-- The values the `var` block gives them: 1000 milli-cores and `1<<30` bytes. -/
def Globals.initial : Globals :=
  { defaultCpuMillicores := NewMilliQuantity 1000 Format.DecimalSI,
    defaultMemoryBytes := NewQuantity (2 ^ 30) Format.BinarySI }

/-- `minMemoryOverhead`, 384Mi. The code only reads through this pointer (`Cmp`, and the
copy `*minMemoryOverhead`), so its target is a constant. -/
def minMemoryOverhead : Quantity := NewQuantity (384 * 2 ^ 20) Format.BinarySI

/-- A `*resource.Quantity`: the address of a local quantity nothing else refers to (kept
with its current value), or one of the two package-level pointers. -/
inductive QuantityPtr where
  | fresh (q : Quantity)
  | defaultMemoryBytes
  | defaultCpuMillicores
  deriving DecidableEq, Repr

/-- The quantity a pointer points at. -/
def QuantityPtr.load (g : Globals) : QuantityPtr → Quantity
  | .fresh q => q
  | .defaultMemoryBytes => g.defaultMemoryBytes
  | .defaultCpuMillicores => g.defaultCpuMillicores

/-- `p.Add(y)` through a pointer: the quantity pointed at is updated, which for a
package-level pointer is the package-level variable. -/
def QuantityPtr.Add (g : Globals) (p : QuantityPtr) (y : Quantity) : QuantityPtr × Globals :=
  match p with
  | .fresh q => (.fresh (q.Add y), g)
  | .defaultMemoryBytes =>
    (.defaultMemoryBytes, { g with defaultMemoryBytes := g.defaultMemoryBytes.Add y })
  | .defaultCpuMillicores =>
    (.defaultCpuMillicores, { g with defaultCpuMillicores := g.defaultCpuMillicores.Add y })

/-! ## float64 -/

/-- Modelled from the spec: the `float64` of the language, which the spec's
`base_memory × factor` is computed in, is IEEE 754 binary64. A value is the finite number
`mantissa * 2 ^ exponent`, an infinity, or not-a-number. The values the operations below produce have a mantissa below `2 ^ 53` in magnitude (or equal
to it) and an exponent of at least -1074, as IEEE 754 binary64 has; the sign of a zero is not
kept, since the code only converts the product to an integer. -/
inductive Float64 where
  | finite (mantissa : Int) (exponent : Int)
  | inf (negative : Bool)
  | nan
  deriving DecidableEq, Repr

/-- The number of binary digits of `n`, with `fuel` steps. -/
def bitLengthAux : Nat → Nat → Nat
  | 0, _ => 0
  | fuel + 1, n => if n = 0 then 0 else bitLengthAux fuel (n / 2) + 1

/-- The number of binary digits of `n`. -/
def bitLength (n : Nat) : Nat := bitLengthAux n n

/-- The `float64` nearest to the fraction `p / q` (negated when `negative`), ties going to
the even mantissa: the rounding of IEEE 754 that Go applies to a constant, to a conversion
from an integer and to the result of a multiplication. The mantissa gets 53 bits, fewer
below `2 ^ -1022`, and a result of `2 ^ 1024` or more is an infinity. -/
def Float64.round (negative : Bool) (p q : Nat) : Float64 :=
  if p = 0 then .finite 0 0
  else
    let e0 : Int := (bitLength p : Int) - (bitLength q : Int)
    let reaches : Bool :=
      if 0 ≤ e0 then decide (q * 2 ^ e0.toNat ≤ p) else decide (q ≤ p * 2 ^ (-e0).toNat)
    let leading : Int := if reaches then e0 else e0 - 1
    let e : Int := max (leading - 52) (-1074)
    let num : Nat := if e < 0 then p * 2 ^ (-e).toNat else p
    let den : Nat := if e < 0 then q else q * 2 ^ e.toNat
    let n : Nat := num / den
    let r : Nat := num % den
    let m : Nat := if den < 2 * r ∨ (2 * r = den ∧ n % 2 = 1) then n + 1 else n
    if 1024 < e + (bitLength m : Int) then .inf negative
    else .finite (if negative then - (m : Int) else (m : Int)) e

/-- The conversion `float64(n)` of an integer. -/
def Float64.ofInt (n : Int) : Float64 := Float64.round (decide (n < 0)) n.natAbs 1

/-- The product `x * y` of two `float64` values. -/
def Float64.mul : Float64 → Float64 → Float64
  | .nan, _ => .nan
  | _, .nan => .nan
  | .inf a, .inf b => .inf (a != b)
  | .inf a, .finite m _ => if m = 0 then .nan else .inf (a != decide (m < 0))
  | .finite m _, .inf b => if m = 0 then .nan else .inf (decide (m < 0) != b)
  | .finite m1 e1, .finite m2 e2 =>
    Float64.round (decide (m1 * m2 < 0))
      (if 0 ≤ e1 + e2 then (m1 * m2).natAbs * 2 ^ (e1 + e2).toNat else (m1 * m2).natAbs)
      (if 0 ≤ e1 + e2 then 1 else 2 ^ (-(e1 + e2)).toNat)

/-- The conversion `int64(x)` where the Go specification defines it: a finite value is
truncated toward zero, and the result is `none` when that integer is not an `int64`, or the
value is infinite or not a number. -/
def Float64.truncate : Float64 → Option Int
  | .finite m e =>
    let t : Int := if 0 ≤ e then m * 2 ^ e.toNat else Int.tdiv m (2 ^ (-e).toNat)
    if -2 ^ 63 ≤ t ∧ t < 2 ^ 63 then some t else none
  | _ => none

/-- The variable `defaultMemoryOverhead`: the constant `0.1` as a `float64`. -/
def defaultMemoryOverhead : Float64 := Float64.round false 1 10

/-- The variable `nonJvmDefaultMemoryOverhead`: the constant `0.4` as a `float64`. -/
def nonJvmDefaultMemoryOverhead : Float64 := Float64.round false 4 10

/-- An integer brought into the range of `int64` (its low 64 bits). -/
def wrapInt64 (n : Int) : Int := (n + 2 ^ 63) % 2 ^ 64 - 2 ^ 63

/-- Modelled from the spec: `q.Value()` of the library, where its result is defined: the
amount rounded up, away from zero, to a whole number of units; `none` when that number is not
an `int64`. -/
def Quantity.int64Value (q : Quantity) : Option Int :=
  let v : Int := if 0 ≤ q.nano then - ((- q.nano) / 10 ^ 9) else q.nano / 10 ^ 9
  if -2 ^ 63 ≤ v ∧ v < 2 ^ 63 then some v else none

/-- Modelled from the spec: what the code takes from outside the package and the language
definition. `ParseFloat s` is `strconv.ParseFloat(s, 64)` (`none` when it returns an error);
`convertOutOfRange x` is the `int64` that `int64(x)` yields for a `float64` that is not a
number, is infinite or lies outside the range of `int64`, which Go leaves to the
implementation; `valueOutOfRange q` is the `int64` that `q.Value()` yields for an amount
outside the range of `int64`. Both are brought into the range of `int64` where they are
used. -/
structure Numerics where
  ParseFloat : String → Option Float64
  convertOutOfRange : Float64 → Int
  valueOutOfRange : Quantity → Int

/-- `memoryBytes.Value()`. -/
def Quantity.Value (nm : Numerics) (q : Quantity) : Int :=
  match q.int64Value with
  | some v => v
  | none => wrapInt64 (nm.valueOutOfRange q)

/-- The conversion `int64(x)`. -/
def Float64.toInt64 (nm : Numerics) (x : Float64) : Int :=
  match x.truncate with
  | some t => t
  | none => wrapInt64 (nm.convertOutOfRange x)

/-- The expression `int64(float64(memoryBytes.Value()) * overheadFactor)` of
`memoryRequiredForSparkPod`. -/
def overheadBytes (nm : Numerics) (memoryBytes : Quantity) (overheadFactor : Float64) : Int :=
  Float64.toInt64 nm (Float64.mul (Float64.ofInt (memoryBytes.Value nm)) overheadFactor)

/-! ## yunikorn_resource_usage.go -/

/-- `coresRequiredForSparkPod`: a new quantity of `Cores * 1000` milli-cores, or the
package-level pointer `defaultCpuMillicores`. The error it returns is always nil. -/
def coresRequiredForSparkPod (spec : SparkPodSpec) : Except Error QuantityPtr :=
  match spec.Cores with
  | some cores => .ok (.fresh (NewMilliQuantity (cores * 1000) Format.BinarySI))
  | none => .ok .defaultCpuMillicores

/-- The overhead factor of `memoryRequiredForSparkPod` when no explicit overhead is given. -/
def overheadFactor (nm : Numerics) (memoryOverheadFactor : Option String) (appType : String) :
    Except Error Float64 :=
  match memoryOverheadFactor with
  | some f =>
    match nm.ParseFloat f with
    | some x => .ok x
    | none => .error (.numError f)
  | none =>
    if appType = JavaApplicationType then .ok defaultMemoryOverhead
    else .ok nonJvmDefaultMemoryOverhead

/-- The first half of `memoryRequiredForSparkPod`: the pointer `memoryBytes`. -/
def memoryBytesPtr (spec : SparkPodSpec) : Except Error QuantityPtr :=
  match spec.Memory with
  | some s =>
    match parseJavaMemoryString s with
    | .ok memory => .ok (.fresh memory)
    | .error err => .error err
  | none => .ok .defaultMemoryBytes

/-- The second half of `memoryRequiredForSparkPod`: the value `memoryOverheadBytes`, given
the quantity `memoryBytes` points at. -/
def memoryOverheadBytes (nm : Numerics) (memoryBytes : Quantity) (spec : SparkPodSpec)
    (memoryOverheadFactor : Option String) (appType : String) : Except Error Quantity :=
  match spec.MemoryOverhead with
  | some s => parseJavaMemoryString s
  | none =>
    match overheadFactor nm memoryOverheadFactor appType with
    | .error err => .error err
    | .ok factor =>
      let computed := NewQuantity (overheadBytes nm memoryBytes factor) Format.BinarySI
      if minMemoryOverhead.Cmp computed = 1 then .ok minMemoryOverhead else .ok computed

/-- `memoryRequiredForSparkPod`. The result is the returned pointer (or error) and the
package-level variables after the call: `memoryBytes.Add` writes through the pointer, which
is `defaultMemoryBytes` itself when the spec has no memory string. -/
def memoryRequiredForSparkPod (nm : Numerics) (g : Globals) (spec : SparkPodSpec)
    (memoryOverheadFactor : Option String) (appType : String) :
    Except Error QuantityPtr × Globals :=
  match memoryBytesPtr spec with
  | .error err => (.error err, g)
  | .ok memoryBytes =>
    match memoryOverheadBytes nm (memoryBytes.load g) spec memoryOverheadFactor appType with
    | .error err => (.error err, g)
    | .ok overhead => (.ok (memoryBytes.Add g overhead).1, (memoryBytes.Add g overhead).2)

/-- `cpuRequiredForSidecar`; `resource.Quantity{}` is the zero amount with no format. -/
def cpuRequiredForSidecar (sidecar : Container) : Quantity :=
  match sidecar.Requests.lookup ResourceCPU with
  | some requestCpu => requestCpu
  | none => { nano := 0, Format := Format.Unset }

/-- `memoryRequiredForSidecar`. -/
def memoryRequiredForSidecar (sidecar : Container) : Quantity :=
  match sidecar.Requests.lookup ResourceMemory with
  | some requestMemory => requestMemory
  | none => { nano := 0, Format := Format.Unset }

/-- The loop over the sidecars in `driverPodResourceUsage` and `executorPodResourceUsage`:
both pointers are added to, one sidecar after the other. -/
def addSidecars (g : Globals) (cores memory : QuantityPtr) :
    List Container → QuantityPtr × QuantityPtr × Globals
  | [] => (cores, memory, g)
  | sidecar :: sidecars =>
    let c := cores.Add g (cpuRequiredForSidecar sidecar)
    let m := memory.Add c.2 (memoryRequiredForSidecar sidecar)
    addSidecars m.2 c.1 m.1 sidecars

/-- `emptyResourceMap`. -/
def emptyResourceMap : StringMap := []

/-- The body shared by `driverPodResourceUsage` and `executorPodResourceUsage`, for the pod
spec and the sidecars of the role. With an error the Go functions also return
`emptyResourceMap`, which the caller does not read. -/
def podResourceUsage (nm : Numerics) (g : Globals) (spec : SparkPodSpec)
    (memoryOverheadFactor : Option String) (appType : String) :
    Except Error StringMap × Globals :=
  let required := memoryRequiredForSparkPod nm g spec memoryOverheadFactor appType
  match required.1 with
  | .error err => (.error err, required.2)
  | .ok memory =>
    match coresRequiredForSparkPod spec with
    | .error err => (.error err, required.2)
    | .ok cores =>
      let r := addSidecars required.2 cores memory spec.Sidecars
      (.ok [(ResourceCPU, (r.1.load r.2.2).String), (ResourceMemory, (r.2.1.load r.2.2).String)],
        r.2.2)

/-- `driverPodResourceUsage`. -/
def driverPodResourceUsage (nm : Numerics) (g : Globals) (app : SparkApplication) :
    Except Error StringMap × Globals :=
  podResourceUsage nm g app.Spec.Driver.SparkPodSpec app.Spec.MemoryOverheadFactor app.Spec.Type_

/-- `executorPodResourceUsage`. -/
def executorPodResourceUsage (nm : Numerics) (g : Globals) (app : SparkApplication) :
    Except Error StringMap × Globals :=
  podResourceUsage nm g app.Spec.Executor.SparkPodSpec app.Spec.MemoryOverheadFactor
    app.Spec.Type_

/-- `getInitialExecutors`. -/
def getInitialExecutors (app : SparkApplication) : Int :=
  let initialExecutors : Int := 0
  let initialExecutors := match app.Spec.Executor.Instances with
    | some instances => max initialExecutors instances
    | none => initialExecutors
  match app.Spec.DynamicAllocation with
  | some dynamicAllocation =>
    let initialExecutors := match dynamicAllocation.MinExecutors with
      | some minExecutors => max initialExecutors minExecutors
      | none => initialExecutors
    match dynamicAllocation.InitialExecutors with
    | some initial => max initialExecutors initial
    | none => initialExecutors
  | none => initialExecutors

/-! ## yunikorn_scheduler.go -/

/-- `DriverTaskGroupName`. -/
def DriverTaskGroupName : String := "spark-driver"

/-- `ExecutorTaskGroupName`. -/
def ExecutorTaskGroupName : String := "spark-executor"

/-- `TaskGroupNameAnnotation`. -/
def TaskGroupNameAnnotation : String := "yunikorn.apache.org/task-group-name"

/-- `TaskGroupsAnnotation`. -/
def TaskGroupsAnnotation : String := "yunikorn.apache.org/task-groups"

/-- `QueueLabel`. -/
def QueueLabel : String := "queue"

/-- The struct `taskGroup`; `MinMember` is an `int32`. -/
structure taskGroup where
  Name : String
  MinMember : Int
  MinResource : Option StringMap
  NodeSelector : Option StringMap
  Tolerations : List Toleration
  Affinity : Option Affinity
  Labels : Option StringMap
  deriving DecidableEq, Repr

/-! ### encoding/json for `[]taskGroup` -/

/-- The four hexadecimal digits of a code point below 65536. -/
def hex4 (n : Nat) : List Char :=
  let digit := fun (d : Nat) => if d < 10 then Char.ofNat (48 + d) else Char.ofNat (87 + d)
  [digit (n / 4096 % 16), digit (n / 256 % 16), digit (n / 16 % 16), digit (n % 16)]

/-- One character inside a JSON string, as `encoding/json` writes it with HTML escaping on:
the quote and the backslash are escaped with a backslash, newline, carriage return and tab
as `\n`, `\r`, `\t`, and the other control characters, `<`, `>`, `&`, U+2028 and U+2029 as
`\u` and four hexadecimal digits. -/
def jsonEscapeChar (c : Char) : List Char :=
  if c.toNat = 34 then [Char.ofNat 92, Char.ofNat 34]
  else if c.toNat = 92 then [Char.ofNat 92, Char.ofNat 92]
  else if c.toNat = 10 then [Char.ofNat 92, 'n']
  else if c.toNat = 13 then [Char.ofNat 92, 'r']
  else if c.toNat = 9 then [Char.ofNat 92, 't']
  else if c.toNat < 32 ∨ c.toNat = 60 ∨ c.toNat = 62 ∨ c.toNat = 38 ∨ c.toNat = 8232 ∨
      c.toNat = 8233 then Char.ofNat 92 :: 'u' :: hex4 c.toNat
  else [c]

/-- A JSON string. -/
def jsonString (s : String) : List Char :=
  Char.ofNat 34 :: (s.toList.map jsonEscapeChar).flatten ++ [Char.ofNat 34]

/-- Strict lexicographic order on strings by code point, the order in which `encoding/json`
writes the keys of a map. -/
def keyLt : List Char → List Char → Bool
  | _, [] => false
  | [], _ :: _ => true
  | a :: as, b :: bs => decide (a.toNat < b.toNat) || (decide (a.toNat = b.toNat) && keyLt as bs)

/-- Insertion of an entry into a list of entries sorted by key. -/
def insertEntry (kv : String × String) : StringMap → StringMap
  | [] => [kv]
  | e :: es => if keyLt kv.1.toList e.1.toList then kv :: e :: es else e :: insertEntry kv es

/-- The entries of a map, one per key (the first one), sorted by key. -/
def sortedEntries : StringMap → StringMap
  | [] => []
  | kv :: m => insertEntry kv ((sortedEntries m).filter (fun e => e.1 ≠ kv.1))

/-- Items separated by commas. -/
def commaSeparated : List (List Char) → List Char
  | [] => []
  | [x] => x
  | x :: y :: rest => x ++ ',' :: commaSeparated (y :: rest)

/-- A JSON object from its members, already encoded. -/
def jsonObject (members : List (List Char)) : List Char :=
  Char.ofNat 123 :: commaSeparated members ++ [Char.ofNat 125]

/-- A member `"key":value` of a JSON object. -/
def jsonMember (key : String) (value : List Char) : List Char :=
  jsonString key ++ ':' :: value

/-- A `map[string]string` as a JSON object, keys sorted. -/
def jsonMap (m : StringMap) : List Char :=
  jsonObject ((sortedEntries m).map (fun e => jsonMember e.1 (jsonString e.2)))

/-- A member with `omitempty` for a string: left out when the string is empty. -/
def omitEmptyString (key value : String) : List (List Char) :=
  if value = "" then [] else [jsonMember key (jsonString value)]

/-- A member with `omitempty` for a map: left out when the map is nil or has no key. -/
def omitEmptyMap (key : String) (m : Option StringMap) : List (List Char) :=
  match m with
  | none => []
  | some [] => []
  | some entries => [jsonMember key (jsonMap entries)]

/-- A `corev1.Toleration` as JSON; every field has `omitempty`. -/
def jsonToleration (t : Toleration) : List Char :=
  jsonObject (omitEmptyString "key" t.Key ++ omitEmptyString "operator" t.Operator ++
    omitEmptyString "value" t.Value ++ omitEmptyString "effect" t.Effect ++
    (match t.TolerationSeconds with
      | none => []
      | some n => [jsonMember "tolerationSeconds" (intString n)]))

/-- A `taskGroup` as JSON, with the field names and `omitempty` of its struct tags. -/
def jsonTaskGroup (tg : taskGroup) : List Char :=
  jsonObject ([jsonMember "name" (jsonString tg.Name),
      jsonMember "minMember" (intString tg.MinMember)] ++
    omitEmptyMap "minResource" tg.MinResource ++
    omitEmptyMap "nodeSelector" tg.NodeSelector ++
    (match tg.Tolerations with
      | [] => []
      | ts => [jsonMember "tolerations"
          ('[' :: commaSeparated (ts.map jsonToleration) ++ [']'])]) ++
    (match tg.Affinity with
      | none => []
      | some a => [jsonMember "affinity" a.encoded.toList]) ++
    omitEmptyMap "labels" tg.Labels)

/-- The bytes `json.Marshal` produces for a slice of task groups, as a string. -/
def marshalled (taskGroups : List taskGroup) : String :=
  String.mk ('[' :: commaSeparated (taskGroups.map jsonTaskGroup) ++ [']'])

/-- `json.Marshal(taskGroups)`. For this type the encoder has no failing case, so the result
is always `ok`. -/
def jsonMarshal (taskGroups : List taskGroup) : Except Error String :=
  .ok (marshalled taskGroups)

/-! ### The scheduler -/

/-- What a call that updates the application in place leaves behind: the error it
returns (`none` for nil), the application, and the package-level variables. -/
structure Outcome where
  err : Option Error
  app : SparkApplication
  globals : Globals

/-- Assignment `m[k] = v` on a map field, after the `if m == nil \x7b m = make(...) \x7d`
that precedes it in the source. -/
def assign (m : Option StringMap) (k v : String) : Option StringMap :=
  some (StringMap.set k v (m.getD []))

/-- `addTaskGroupAnnotations`: the returned error and the application after the call. The
annotation maps of the two roles are distinct objects. -/
def addTaskGroupAnnotations (app : SparkApplication) (taskGroups : List taskGroup) :
    Option Error × SparkApplication :=
  match jsonMarshal taskGroups with
  | .error err => (some (.wrapped "failed to marshal taskGroups" err), app)
  | .ok marshalledTaskGroups =>
    let driver := app.Spec.Driver.SparkPodSpec
    let executor := app.Spec.Executor.SparkPodSpec
    let driverAnnotations := assign driver.Annotations TaskGroupNameAnnotation DriverTaskGroupName
    let executorAnnotations :=
      assign executor.Annotations TaskGroupNameAnnotation ExecutorTaskGroupName
    let driverAnnotations := assign driverAnnotations TaskGroupsAnnotation marshalledTaskGroups
    (none, { app with Spec := { app.Spec with
      Driver := { app.Spec.Driver with
        SparkPodSpec := { driver with Annotations := driverAnnotations } },
      Executor := { app.Spec.Executor with
        SparkPodSpec := { executor with Annotations := executorAnnotations } } } })

/-- The queue name `addQueueLabels` writes, when both pointers on the way to it are set. -/
def configuredQueue (app : SparkApplication) : Option String :=
  match app.Spec.BatchSchedulerOptions with
  | some options => options.Queue
  | none => none

/-- `addQueueLabels`. The label maps of the two roles are distinct objects. -/
def addQueueLabels (app : SparkApplication) : SparkApplication :=
  match configuredQueue app with
  | some queue =>
    let driver := app.Spec.Driver.SparkPodSpec
    let executor := app.Spec.Executor.SparkPodSpec
    { app with Spec := { app.Spec with
      Driver := { app.Spec.Driver with
        SparkPodSpec := { driver with Labels := assign driver.Labels QueueLabel queue } },
      Executor := { app.Spec.Executor with
        SparkPodSpec := { executor with Labels := assign executor.Labels QueueLabel queue } } } }
  | none => app

/-- The driver task group of `DoBatchSchedulingOnSubmission`. -/
def driverTaskGroup (app : SparkApplication) (driverMinResources : StringMap) : taskGroup :=
  { Name := DriverTaskGroupName,
    MinMember := 1,
    MinResource := some driverMinResources,
    NodeSelector := mergeMaps app.Spec.NodeSelector app.Spec.Driver.SparkPodSpec.NodeSelector,
    Tolerations := app.Spec.Driver.SparkPodSpec.Tolerations,
    Affinity := app.Spec.Driver.SparkPodSpec.Affinity,
    Labels := app.Spec.Driver.SparkPodSpec.Labels }

/-- The executor task group of `DoBatchSchedulingOnSubmission`. -/
def executorTaskGroup (app : SparkApplication) (initialExecutors : Int)
    (executorMinResources : StringMap) : taskGroup :=
  { Name := ExecutorTaskGroupName,
    MinMember := initialExecutors,
    MinResource := some executorMinResources,
    NodeSelector := mergeMaps app.Spec.NodeSelector app.Spec.Executor.SparkPodSpec.NodeSelector,
    Tolerations := app.Spec.Executor.SparkPodSpec.Tolerations,
    Affinity := app.Spec.Executor.SparkPodSpec.Affinity,
    Labels := app.Spec.Executor.SparkPodSpec.Labels }

/-- The first part of `DoBatchSchedulingOnSubmission`, up to the call of
`addTaskGroupAnnotations`: the slice `taskGroups`, or the error the function returns, and
the package-level variables at that point. -/
def buildTaskGroups (nm : Numerics) (g : Globals) (app : SparkApplication) :
    Except Error (List taskGroup) × Globals :=
  let driver := driverPodResourceUsage nm g app
  match driver.1 with
  | .error err =>
    (.error (.wrapped "failed to calculate driver pod resource usage" err), driver.2)
  | .ok driverMinResources =>
    if getInitialExecutors app > 0 then
      let executor := executorPodResourceUsage nm driver.2 app
      match executor.1 with
      | .error err =>
        (.error (.wrapped "failed to calculate executor pod resource usage" err), executor.2)
      | .ok executorMinResources =>
        (.ok [driverTaskGroup app driverMinResources,
          executorTaskGroup app (getInitialExecutors app) executorMinResources], executor.2)
    else (.ok [driverTaskGroup app driverMinResources], driver.2)

/-- `DoBatchSchedulingOnSubmission`. -/
def DoBatchSchedulingOnSubmission (nm : Numerics) (g : Globals) (app : SparkApplication) :
    Outcome :=
  let built := buildTaskGroups nm g app
  match built.1 with
  | .error err => { err := some err, app := app, globals := built.2 }
  | .ok taskGroups =>
    let annotated := addTaskGroupAnnotations app taskGroups
    match annotated.1 with
    | some err =>
      { err := some (.wrapped "failed to add task group annotations" err),
        app := annotated.2, globals := built.2 }
    | none => { err := none, app := addQueueLabels annotated.2, globals := built.2 }

/-! ## An instance of `Numerics`, for evaluating the definitions -/

/-- A decimal literal `[+-]digits[.digits][e[+-]digits]` as a `float64`: the nearest one, and
`none` when the text has another form or the value is too large for a `float64`. -/
def decimalFloat (s : List Char) : Option Float64 :=
  let negative := decide (s.head? = some '-')
  let body := if s.head? = some '-' ∨ s.head? = some '+' then s.tail else s
  let whole := body.takeWhile isDigit
  let afterWhole := body.dropWhile isDigit
  let fraction := if afterWhole.head? = some '.' then afterWhole.tail.takeWhile isDigit else []
  let afterFraction :=
    if afterWhole.head? = some '.' then afterWhole.tail.dropWhile isDigit else afterWhole
  let hasExponent := decide (afterFraction.head? = some 'e' ∨ afterFraction.head? = some 'E')
  let exponentText := if hasExponent then afterFraction.tail else []
  let exponentNegative := decide (exponentText.head? = some '-')
  let exponentDigits :=
    if exponentText.head? = some '-' ∨ exponentText.head? = some '+' then exponentText.tail
    else exponentText
  if (whole = [] ∧ fraction = []) ∨ (hasExponent = false ∧ afterFraction ≠ []) ∨
      (hasExponent = true ∧ (exponentDigits = [] ∨ exponentDigits.all isDigit = false)) then none
  else
    let power : Int :=
      (if exponentNegative then - (digitsValue exponentDigits : Int)
        else (digitsValue exponentDigits : Int)) - fraction.length
    let x := Float64.round negative
      (if 0 ≤ power then digitsValue (whole ++ fraction) * 10 ^ power.toNat
        else digitsValue (whole ++ fraction))
      (if 0 ≤ power then 1 else 10 ^ (-power).toNat)
    match x with
    | .finite m e => some (.finite m e)
    | _ => none

/-- An instance of `Numerics` used to run the definitions on examples: `ParseFloat` reads
decimal literals, and `int64(x)` of a value out of range is the smallest `int64`, which is
what the conversion instruction of amd64 returns; `Value` out of range is given the same
number, and no example reaches it. The theorems about the code hold for every instance. -/
def exampleNumerics : Numerics :=
  { ParseFloat := fun s => decimalFloat s.toList,
    convertOutOfRange := fun _ => - 2 ^ 63,
    valueOutOfRange := fun _ => - 2 ^ 63 }

/-! ## Malformed strings -/

/-- A memory string is malformed when `parseJavaMemoryString` fails on it. -/
def malformedMemory (s : String) : Prop := ∃ err, parseJavaMemoryString s = .error err

/-- A role has a malformed string that its memory computation reads: its memory string, its
memory-overhead string, or, when it has no memory-overhead string, the factor string of the
workload (malformed when `strconv.ParseFloat` fails on it). -/
def readsMalformed (nm : Numerics) (spec : SparkPodSpec) (memoryOverheadFactor : Option String) :
    Prop :=
  (∃ s, spec.Memory = some s ∧ malformedMemory s) ∨
  (∃ t, spec.MemoryOverhead = some t ∧ malformedMemory t) ∨
  (spec.MemoryOverhead = none ∧
    ∃ f, memoryOverheadFactor = some f ∧ nm.ParseFloat f = none)

/-- The queue label is already in place: no queue name is configured, or the label maps of
both roles already hold the configured name under `queue`. -/
def queueLabelsInPlace (app : SparkApplication) : Prop :=
  configuredQueue app = none ∨
    ∃ queue, configuredQueue app = some queue ∧
      getKey app.Spec.Driver.SparkPodSpec.Labels QueueLabel = some queue ∧
      getKey app.Spec.Executor.SparkPodSpec.Labels QueueLabel = some queue

/-! ## Example workloads -/

/-- A pod spec with the given cores, memory string and memory-overhead string, and nothing
else set. -/
def podSpecOf (cores : Option Int) (memory memoryOverhead : Option String) : SparkPodSpec :=
  { Cores := cores, Memory := memory, MemoryOverhead := memoryOverhead, Sidecars := [],
    NodeSelector := none, Tolerations := [], Affinity := none, Labels := none,
    Annotations := none }

/-- An application of the Java type with the given driver and executor pod specs, executor
instance count and queue name, and nothing else set. -/
def applicationOf (driver executor : SparkPodSpec) (instances : Option Int)
    (queue : Option String) : SparkApplication :=
  { Spec :=
    { Type_ := JavaApplicationType, MemoryOverheadFactor := none, NodeSelector := none,
      DynamicAllocation := none,
      BatchSchedulerOptions := queue.map (fun q => { Queue := some q }),
      Driver := { SparkPodSpec := driver },
      Executor := { SparkPodSpec := executor, Instances := instances } } }

/-- Driver and executor without a memory string, each with the explicit overhead `384m`, and
one executor instance: no float step is involved in its build. -/
def defaultMemoryApplication : SparkApplication :=
  applicationOf (podSpecOf none none (some "384m")) (podSpecOf none none (some "384m"))
    (some 1) none

/-- Instances, `minExecutors` and `initialExecutors` all set to -1. -/
def negativeCountsApplication : SparkApplication :=
  { Spec :=
    { Type_ := JavaApplicationType, MemoryOverheadFactor := none, NodeSelector := none,
      DynamicAllocation := some
        { InitialExecutors := some (-1), MinExecutors := some (-1), MaxExecutors := none },
      BatchSchedulerOptions := none,
      Driver := { SparkPodSpec := podSpecOf none none none },
      Executor := { SparkPodSpec := podSpecOf none none none, Instances := some (-1) } } }

/-- Driver and executor with explicit cores, memory `1g` and overhead `384m`, one executor
instance and the given queue: its build involves no float step and leaves the package-level
variables alone. -/
def explicitApplication (queue : Option String) : SparkApplication :=
  applicationOf (podSpecOf (some 1) (some "1g") (some "384m"))
    (podSpecOf (some 1) (some "1g") (some "384m")) (some 1) queue

/-- The driver as in `explicitApplication`, no executor instance count, and an executor
whose memory string `lots` has no digit. -/
def unreadExecutorApplication : SparkApplication :=
  applicationOf (podSpecOf (some 1) (some "1g") (some "384m"))
    (podSpecOf none (some "lots") none) none none

/-- A driver whose memory string `abc` has no digit. -/
def malformedDriverApplication : SparkApplication :=
  applicationOf (podSpecOf none (some "abc") none) (podSpecOf none none none) none none

/-- A driver without a core count, with memory `1g`, overhead `384m` and two sidecars, the
first requesting 500 milli-cores and 256Mi, the second requesting nothing. -/
def sidecarApplication : SparkApplication :=
  applicationOf
    { podSpecOf none (some "1g") (some "384m") with
      Sidecars :=
        [{ Requests := [("cpu", NewMilliQuantity 500 Format.DecimalSI),
            ("memory", NewQuantity (256 * 2 ^ 20) Format.BinarySI)] },
         { Requests := [] }] }
    (podSpecOf none none none) none none

/-- Scenario A of the spec: Java type, no factor string, a driver with no cores, memory,
overhead or sidecars; no executor is requested. -/
def scenarioApplication : SparkApplication :=
  applicationOf (podSpecOf none none none) (podSpecOf none none none) none none

/-- The driver of scenario A with one executor instance whose memory string `lots` has no
digit. -/
def scenarioMalformedExecutorApplication : SparkApplication :=
  applicationOf (podSpecOf none none none) (podSpecOf none (some "lots") none) (some 1) none


/-- The suffixes the spec lists as recognised. -/
def recognisedSuffixes : List String :=
  ["b", "kb", "k", "mb", "m", "gb", "g", "tb", "t", "pb", "p"]


/-- The pods of `explicitApplication` with an executor instance count of -3. -/
def negativeInstancesApplication : SparkApplication :=
  applicationOf (podSpecOf (some 1) (some "1g") (some "384m"))
    (podSpecOf (some 1) (some "1g") (some "384m")) (some (-3)) none

/-- The driver of `explicitApplication`, one executor instance, and an executor whose memory
string `lots` has no digit: the driver's usage is computed, then the executor's fails. -/
def malformedExecutorApplication : SparkApplication :=
  applicationOf (podSpecOf (some 1) (some "1g") (some "384m"))
    (podSpecOf none (some "lots") none) (some 1) (some "research")


/-! ## Lemmas on the matching code -/

theorem toLowerChar_of_isDigit {c : Char} (h : isDigit c = true) : toLowerChar c = c := by
  simp only [isDigit, decide_eq_true_eq] at h
  unfold toLowerChar Char.toLower
  have h1 : c.toNat ≠ 8490 := by omega
  have h2 : c.toNat ≠ 304 := by omega
  have h3 : ¬ (c.toNat ≥ 65 ∧ c.toNat ≤ 90) := by omega
  simp [h1, h2, h3]

theorem ToLower_digits {ds : List Char} (h : ∀ c ∈ ds, isDigit c = true) : ToLower ds = ds := by
  induction ds with
  | nil => rfl
  | cons d ds ih =>
    simp only [ToLower, List.map_cons] at ih ⊢
    rw [toLowerChar_of_isDigit (h d (List.mem_cons_self _ _)),
      ih (fun c hc => h c (List.mem_cons_of_mem _ hc))]

theorem ToLower_append (a b : List Char) : ToLower (a ++ b) = ToLower a ++ ToLower b := by
  simp [ToLower]

theorem takeWhile_digits_append {ds : List Char} (h : ∀ c ∈ ds, isDigit c = true)
    (rest : List Char) :
    (ds ++ rest).takeWhile isDigit = ds ++ rest.takeWhile isDigit := by
  induction ds with
  | nil => rfl
  | cons d ds ih =>
    simp only [List.cons_append]
    rw [List.takeWhile_cons_of_pos (h d (List.mem_cons_self _ _)),
      ih (fun c hc => h c (List.mem_cons_of_mem _ hc))]

theorem dropWhile_digits_append {ds : List Char} (h : ∀ c ∈ ds, isDigit c = true)
    (rest : List Char) :
    (ds ++ rest).dropWhile isDigit = rest.dropWhile isDigit := by
  induction ds with
  | nil => rfl
  | cons d ds ih =>
    simp only [List.cons_append]
    rw [List.dropWhile_cons_of_pos (h d (List.mem_cons_self _ _)),
      ih (fun c hc => h c (List.mem_cons_of_mem _ hc))]

theorem javaStringPattern_digits_append {ds : List Char} (hne : ds ≠ [])
    (h : ∀ c ∈ ds, isDigit c = true) (rest : List Char) :
    javaStringPattern (ds ++ rest) =
      some (ds ++ rest.takeWhile isDigit, (rest.dropWhile isDigit).takeWhile isLowerAZ) := by
  cases ds with
  | nil => exact absurd rfl hne
  | cons d ds =>
    have hd : isDigit d = true := h d (List.mem_cons_self _ _)
    rw [← takeWhile_digits_append h rest, ← dropWhile_digits_append h rest]
    simp only [List.cons_append, javaStringPattern, hd, if_true]
    rfl

theorem parseUnsignedQuantity_digits_suffix {ds : List Char} (hne : ds ≠ [])
    (hds : ∀ c ∈ ds, isDigit c = true) (suf : List Char) (format : Format) (e : Nat)
    (h1 : suf.takeWhile isDigit = []) (h2 : suf.dropWhile isDigit = suf)
    (h3 : suf.head? ≠ some '.') (h4 : interpretSuffix suf = some (format, e)) :
    parseUnsignedQuantity (ds ++ suf) = .ok
      { nano := if format = Format.BinarySI ∧
            maxAllowed * 10 ^ 9 < (digitsValue ds : Int) * 2 ^ e * 10 ^ 9
          then maxAllowed * 10 ^ 9 else (digitsValue ds : Int) * 2 ^ e * 10 ^ 9,
        Format := format } := by
  have hnum : ¬ (ds = [] ∧ True) := by
    simp [hne]
  unfold parseUnsignedQuantity
  simp only [takeWhile_digits_append hds, dropWhile_digits_append hds, h1, h2, h3,
    hnum, if_false, h4, List.append_nil, List.length_nil, pow_zero, Int.ediv_one, neg_neg]
  have hN : (0 : Int) ≤ (digitsValue ds : Int) := Int.natCast_nonneg _
  have hpow : (1 : Int) ≤ 2 ^ e := one_le_pow₀ (by norm_num)
  have hcases : (digitsValue ds : Int) * 2 ^ e = 0 ∨ 1 ≤ (digitsValue ds : Int) * 2 ^ e := by
    rcases hN.eq_or_lt with h0 | hpos
    · left
      rw [← h0, zero_mul]
    · right
      nlinarith
  have hmax : (1 : Int) ≤ maxAllowed := by
    unfold maxAllowed
    norm_num
  refine congrArg Except.ok (congrArg (Quantity.mk _) (if_neg ?_))
  rintro ⟨-, hpos, hlt⟩
  split_ifs at hpos hlt
  · omega
  · rcases hcases with h0 | h1
    · rw [h0] at hpos
      omega
    · omega

theorem head_not_sign {str : List Char} {d : Char} (h : str.head? = some d)
    (hd : isDigit d = true) : ¬ (str.head? = some '-' ∨ str.head? = some '+') ∧
      ¬ str.head? = some '-' := by
  have h1 : d ≠ '-' := by
    rintro rfl
    exact absurd hd (by decide)
  have h2 : d ≠ '+' := by
    rintro rfl
    exact absurd hd (by decide)
  rw [h]
  simp [h1, h2]

theorem ParseQuantity_of_digit_head {str : List Char} {d : Char} (h : str.head? = some d)
    (hd : isDigit d = true) : ParseQuantity str = parseUnsignedQuantity str := by
  obtain ⟨h1, h2⟩ := head_not_sign h hd
  unfold ParseQuantity
  simp only
  rw [if_neg h1]
  simp only [h2, if_false]
  cases parseUnsignedQuantity str <;> rfl

theorem ParseQuantity_digits_suffix {ds : List Char} (hne : ds ≠ [])
    (hds : ∀ c ∈ ds, isDigit c = true) (suf : List Char) (format : Format) (e : Nat)
    (h1 : suf.takeWhile isDigit = []) (h2 : suf.dropWhile isDigit = suf)
    (h3 : suf.head? ≠ some '.') (h4 : interpretSuffix suf = some (format, e)) :
    ParseQuantity (ds ++ suf) = .ok
      { nano := if format = Format.BinarySI ∧
            maxAllowed * 10 ^ 9 < (digitsValue ds : Int) * 2 ^ e * 10 ^ 9
          then maxAllowed * 10 ^ 9 else (digitsValue ds : Int) * 2 ^ e * 10 ^ 9,
        Format := format } := by
  cases ds with
  | nil => exact absurd rfl hne
  | cons d ds =>
    rw [@ParseQuantity_of_digit_head (d :: ds ++ suf) d rfl (hds d (List.mem_cons_self _ _))]
    exact parseUnsignedQuantity_digits_suffix hne hds suf format e h1 h2 h3 h4

theorem parseJavaMemoryString_digits_suffix {ds : List Char} (hne : ds ≠ [])
    (hds : ∀ c ∈ ds, isDigit c = true) (suf ks : List Char) (scale : String)
    (hsuf : ToLower suf = ks) (h1 : ks.takeWhile isDigit = [])
    (h2 : (ks.dropWhile isDigit).takeWhile isLowerAZ = ks)
    (h3 : javaMemorySuffixToScale (String.mk ks) = some scale) :
    parseJavaMemoryString (String.mk (ds ++ suf)) = ParseQuantity (ds ++ scale.toList) := by
  unfold parseJavaMemoryString
  simp only [String.toList, ToLower_append, ToLower_digits hds, hsuf,
    javaStringPattern_digits_append hne hds, h1, h2, h3, List.append_nil]

theorem quantity_capped_eq (n : Int) (e k : Nat) (hk : k ≠ 0) (he : (2 : Int) ^ e = 1024 ^ k) :
    ({ nano := if Format.BinarySI = Format.BinarySI ∧ maxAllowed * 10 ^ 9 < n * 2 ^ e * 10 ^ 9
          then maxAllowed * 10 ^ 9 else n * 2 ^ e * 10 ^ 9,
       Format := Format.BinarySI } : Quantity) =
      NewQuantity (if k = 0 then n else min (n * 1024 ^ k) maxAllowed)
        (if k = 0 then Format.DecimalSI else Format.BinarySI) := by
  rw [he, if_neg hk, if_neg hk]
  unfold NewQuantity
  congr 1
  rcases le_or_lt (n * 1024 ^ k) maxAllowed with h | h
  · rw [min_eq_left h, if_neg]
    rintro ⟨-, hlt⟩
    have := Int.lt_of_mul_lt_mul_right hlt (by norm_num)
    omega
  · rw [min_eq_right h.le, if_pos]
    exact ⟨rfl, by nlinarith⟩

/-! ## parseJavaMemoryString: integer literals with a suffix -/

/-- C1, as amended: for every non-empty string of decimal digits `ds` and every suffix `suf`
whose lower case is one of b, kb, k, mb, m, gb, g, tb, t, pb, p (power `k` of 1024 as in the
spec), `parseJavaMemoryString (ds ++ suf)` succeeds; it returns exactly the number `N` of
bytes for b, and `min (N * 1024 ^ k) (2 ^ 63 - 1)` bytes for the other suffixes. -/
theorem parseJavaMemoryString_integer_suffix (ds suf : List Char) (key : String) (k : Nat)
    (hne : ds ≠ []) (hds : ∀ c ∈ ds, isDigit c = true)
    (hkey : (key, k) ∈ suffixPowerTable) (hsuf : ToLower suf = key.toList) :
    parseJavaMemoryString (String.mk (ds ++ suf)) =
      .ok (NewQuantity
        (if k = 0 then (digitsValue ds : Int)
          else min ((digitsValue ds : Int) * 1024 ^ k) maxAllowed)
        (if k = 0 then Format.DecimalSI else Format.BinarySI)) := by
  simp only [suffixPowerTable, List.mem_cons, Prod.mk.injEq, List.mem_singleton,
    List.not_mem_nil, or_false] at hkey
  rcases hkey with h | h | h | h | h | h | h | h | h | h | h <;> obtain ⟨rfl, rfl⟩ := h
  · rw [parseJavaMemoryString_digits_suffix hne hds suf _ "" hsuf rfl rfl rfl,
      ParseQuantity_digits_suffix hne hds "".toList Format.DecimalSI 0 rfl rfl (by decide) rfl]
    simp [NewQuantity]
  all_goals first
    | rw [parseJavaMemoryString_digits_suffix hne hds suf _ "Ki" hsuf rfl rfl rfl,
        ParseQuantity_digits_suffix hne hds "Ki".toList Format.BinarySI 10 rfl rfl (by decide) rfl]
      exact congrArg Except.ok (quantity_capped_eq _ 10 1 (by decide) (by norm_num))
    | rw [parseJavaMemoryString_digits_suffix hne hds suf _ "Mi" hsuf rfl rfl rfl,
        ParseQuantity_digits_suffix hne hds "Mi".toList Format.BinarySI 20 rfl rfl (by decide) rfl]
      exact congrArg Except.ok (quantity_capped_eq _ 20 2 (by decide) (by norm_num))
    | rw [parseJavaMemoryString_digits_suffix hne hds suf _ "Gi" hsuf rfl rfl rfl,
        ParseQuantity_digits_suffix hne hds "Gi".toList Format.BinarySI 30 rfl rfl (by decide) rfl]
      exact congrArg Except.ok (quantity_capped_eq _ 30 3 (by decide) (by norm_num))
    | rw [parseJavaMemoryString_digits_suffix hne hds suf _ "Ti" hsuf rfl rfl rfl,
        ParseQuantity_digits_suffix hne hds "Ti".toList Format.BinarySI 40 rfl rfl (by decide) rfl]
      exact congrArg Except.ok (quantity_capped_eq _ 40 4 (by decide) (by norm_num))
    | rw [parseJavaMemoryString_digits_suffix hne hds suf _ "Pi" hsuf rfl rfl rfl,
        ParseQuantity_digits_suffix hne hds "Pi".toList Format.BinarySI 50 rfl rfl (by decide) rfl]
      exact congrArg Except.ok (quantity_capped_eq _ 50 5 (by decide) (by norm_num))

/-- The amended C1 at the literal `512Mb`: 512 * 1024 ^ 2 bytes. -/
theorem parseJavaMemoryString_integer_suffix_witness :
    parseJavaMemoryString "512Mb" = .ok (NewQuantity (512 * 1024 ^ 2) Format.BinarySI) :=
  parseJavaMemoryString_integer_suffix ['5', '1', '2'] ['M', 'b'] "mb" 2 (by decide)
    (by decide) (by decide) (by decide)

/-- C1 as stated fails at `9223372036854775807k`: the call returns `2 ^ 63 - 1` bytes, which
is not `9223372036854775807 * 1024`. -/
theorem parseJavaMemoryString_integer_suffix_capped :
    parseJavaMemoryString "9223372036854775807k" =
        .ok (NewQuantity (2 ^ 63 - 1) Format.BinarySI) ∧
      NewQuantity (2 ^ 63 - 1) Format.BinarySI ≠
        NewQuantity (9223372036854775807 * 1024 ^ 1) Format.BinarySI :=
  ⟨rfl, by decide⟩

/-! ## parseJavaMemoryString: decimal literals and literals without a suffix -/

/-- A decimal literal `D.F` followed by anything is rejected: the integer pattern matches the
digits `D` with an empty suffix, the empty suffix is not a key of `javaMemorySuffixToScale`,
and the fraction pattern is only tried when the integer pattern matches nothing. -/
theorem parseJavaMemoryString_decimal_fails (D rest : List Char) (hne : D ≠ [])
    (hD : ∀ c ∈ D, isDigit c = true) :
    parseJavaMemoryString (String.mk (D ++ '.' :: rest)) =
      .error (.parseError (javaMemoryErrorMessage (String.mk (D ++ '.' :: rest)))) := by
  have hdot : toLowerChar '.' = '.' := by decide
  unfold parseJavaMemoryString
  simp only [String.toList, ToLower_append, ToLower_digits hD]
  simp only [ToLower, List.map_cons, hdot, javaStringPattern_digits_append hne hD]
  have h1 : isDigit '.' = false := by decide
  simp only [List.takeWhile_cons, List.dropWhile_cons, h1, Bool.false_eq_true, if_false,
    List.append_nil]
  have h2 : isLowerAZ '.' = false := by decide
  simp only [List.takeWhile_cons, h2, Bool.false_eq_true, if_false]
  rfl

/-- C2 at `1.5g`: the call returns the parse error and no quantity. -/
theorem parseJavaMemoryString_fraction_rejected :
    parseJavaMemoryString "1.5g" =
      .error (.parseError
        "could not parse string '1.5g' as a Java-style memory value. Examples: 100kb, 1.5mb, 1g") :=
  rfl

/-- A string of digits without a suffix is rejected: group 2 of the integer pattern is the
empty string, which is not a key of `javaMemorySuffixToScale`. -/
theorem parseJavaMemoryString_no_suffix_fails (ds : List Char) (hne : ds ≠ [])
    (hds : ∀ c ∈ ds, isDigit c = true) :
    parseJavaMemoryString (String.mk ds) =
      .error (.parseError (javaMemoryErrorMessage (String.mk ds))) := by
  have h := javaStringPattern_digits_append hne hds []
  simp only [List.append_nil, List.takeWhile_nil, List.dropWhile_nil] at h
  unfold parseJavaMemoryString
  simp only [String.toList, ToLower_digits hds, h]
  rfl

/-- C3 at `512`: the call returns the parse error and no quantity. -/
theorem parseJavaMemoryString_bare_number_rejected :
    parseJavaMemoryString "512" =
      .error (.parseError
        "could not parse string '512' as a Java-style memory value. Examples: 100kb, 1.5mb, 1g") :=
  rfl

/-! ## memoryRequiredForSparkPod -/

/-- The `float64` constant `0.1` is `7205759403792794 * 2 ^ -56` (bits `0x3FB999999999999A`),
and `0.4` is the same mantissa with the exponent -54. -/
theorem defaultMemoryOverhead_eq :
    defaultMemoryOverhead = .finite 7205759403792794 (-56) ∧
      nonJvmDefaultMemoryOverhead = .finite 7205759403792794 (-54) := by
  decide

set_option maxRecDepth 100000 in
/-- Rounding in the model: `2 ^ 53 + 1` lies halfway between two `float64` values and goes to
the even one, `2 ^ 53 + 3` goes up to `2 ^ 53 + 4`, and a power of two is kept. -/
theorem Float64.ofInt_examples :
    Float64.ofInt (2 ^ 53 + 1) = .finite (2 ^ 52) 1 ∧
      Float64.ofInt (2 ^ 53 + 3) = .finite (2 ^ 52 + 2) 1 ∧
      Float64.ofInt (- (2 ^ 30)) = .finite (- (2 ^ 52)) (-22) := by
  decide

theorem wrapInt64_range (n : Int) : -2 ^ 63 ≤ wrapInt64 n ∧ wrapInt64 n < 2 ^ 63 := by
  unfold wrapInt64
  have h1 := Int.emod_nonneg (n + 2 ^ 63) (by norm_num : (2 : Int) ^ 64 ≠ 0)
  have h2 := Int.emod_lt_of_pos (n + 2 ^ 63) (by norm_num : (0 : Int) < 2 ^ 64)
  constructor <;> omega

theorem Float64.truncate_range (x : Float64) (t : Int) (h : x.truncate = some t) :
    -2 ^ 63 ≤ t ∧ t < 2 ^ 63 := by
  cases x with
  | finite m e =>
    unfold Float64.truncate at h
    dsimp only at h
    by_cases hr : -2 ^ 63 ≤ (if 0 ≤ e then m * 2 ^ e.toNat else Int.tdiv m (2 ^ (-e).toNat)) ∧
        (if 0 ≤ e then m * 2 ^ e.toNat else Int.tdiv m (2 ^ (-e).toNat)) < 2 ^ 63
    · rw [if_pos hr] at h
      cases h
      exact hr
    · rw [if_neg hr] at h
      cases h
  | inf b => simp [Float64.truncate] at h
  | nan => simp [Float64.truncate] at h

/-- The result of `int64(x)` is an `int64`, whatever the implementation does out of range. -/
theorem Float64.toInt64_range (nm : Numerics) (x : Float64) :
    -2 ^ 63 ≤ Float64.toInt64 nm x ∧ Float64.toInt64 nm x < 2 ^ 63 := by
  unfold Float64.toInt64
  cases h : x.truncate with
  | some t => exact Float64.truncate_range x t h
  | none => exact wrapInt64_range _

/-- The computed overhead is an `int64`. -/
theorem overheadBytes_range (nm : Numerics) (B : Quantity) (f : Float64) :
    -2 ^ 63 ≤ overheadBytes nm B f ∧ overheadBytes nm B f < 2 ^ 63 :=
  Float64.toInt64_range nm _

/-- When the amount is an `int64` number `v` of bytes and the `float64` product of `v` and the
factor is finite with a truncation `t` in the range of `int64`, the computed overhead is `t`,
on every implementation. -/
theorem overheadBytes_of_truncate (nm : Numerics) (B : Quantity) (f : Float64) (v t : Int)
    (hv : B.int64Value = some v)
    (ht : (Float64.mul (Float64.ofInt v) f).truncate = some t) :
    overheadBytes nm B f = t := by
  unfold overheadBytes Quantity.Value Float64.toInt64
  simp only [hv, ht]

set_option maxRecDepth 100000 in
/-- The overhead computed for the default memory of 1Gi with the factor of the Java type is
107374182 bytes on every implementation: the `float64` product of `2 ^ 30` and `0.1` is
107374182.4 and is truncated. -/
theorem overheadBytes_default (nm : Numerics) :
    overheadBytes nm (NewQuantity (2 ^ 30) Format.BinarySI) defaultMemoryOverhead =
      107374182 :=
  overheadBytes_of_truncate nm _ _ (2 ^ 30) 107374182 (by decide) (by decide)

set_option maxRecDepth 100000 in
/-- The overhead computed for a memory of 100Gi with the factor of the Java type is 10Gi. -/
theorem overheadBytes_hundred (nm : Numerics) :
    overheadBytes nm (NewQuantity (100 * 2 ^ 30) Format.BinarySI) defaultMemoryOverhead =
      10 * 2 ^ 30 :=
  overheadBytes_of_truncate nm _ _ (100 * 2 ^ 30) (10 * 2 ^ 30) (by decide) (by decide)

/-- With an explicit memory string that parses to `B`, no explicit overhead string and the
factor `f`, the result is `B` plus the larger of the computed overhead and 384Mi. -/
theorem memoryRequiredForSparkPod_computed (nm : Numerics) (g : Globals)
    (spec : SparkPodSpec) (memoryOverheadFactor : Option String) (appType : String)
    (s : String) (B : Quantity) (f : Float64)
    (hmem : spec.Memory = some s) (hB : parseJavaMemoryString s = .ok B)
    (hov : spec.MemoryOverhead = none)
    (hfactor : overheadFactor nm memoryOverheadFactor appType = .ok f) :
    memoryRequiredForSparkPod nm g spec memoryOverheadFactor appType =
      (.ok (.fresh (B.Add
        (NewQuantity (max (overheadBytes nm B f) (384 * 2 ^ 20)) Format.BinarySI))), g) := by
  unfold memoryRequiredForSparkPod memoryBytesPtr memoryOverheadBytes
  simp only [hmem, hB, hov, hfactor, QuantityPtr.load, QuantityPtr.Add]
  have hcmp : (if minMemoryOverhead.Cmp (NewQuantity (overheadBytes nm B f) Format.BinarySI) = 1
      then (Except.ok minMemoryOverhead : Except Error Quantity)
      else Except.ok (NewQuantity (overheadBytes nm B f) Format.BinarySI)) =
      Except.ok (NewQuantity (max (overheadBytes nm B f) (384 * 2 ^ 20)) Format.BinarySI) := by
    unfold Quantity.Cmp minMemoryOverhead NewQuantity
    simp only
    rcases lt_trichotomy (overheadBytes nm B f) (384 * 2 ^ 20) with h | h | h
    · have h1 : ¬ ((384 * 2 ^ 20 : Int) * 10 ^ 9 < overheadBytes nm B f * 10 ^ 9) := by omega
      have h2 : ¬ ((384 * 2 ^ 20 : Int) * 10 ^ 9 = overheadBytes nm B f * 10 ^ 9) := by omega
      rw [if_neg h1, if_neg h2, if_pos rfl, max_eq_right h.le]
    · have h1 : ¬ ((384 * 2 ^ 20 : Int) * 10 ^ 9 < overheadBytes nm B f * 10 ^ 9) := by omega
      have h2 : ((384 * 2 ^ 20 : Int) * 10 ^ 9 = overheadBytes nm B f * 10 ^ 9) := by omega
      rw [if_neg h1, if_pos h2, if_neg (by decide), max_eq_left h.ge]
    · have h1 : ((384 * 2 ^ 20 : Int) * 10 ^ 9 < overheadBytes nm B f * 10 ^ 9) := by omega
      rw [if_pos h1, if_neg (by decide), max_eq_left h.le]
  rw [hcmp]

/-- A sum of whole amounts read back as a whole amount. -/
theorem NewQuantity_lt_of_add (B o total bound : Int) (ho : o < bound)
    (h : ((NewQuantity B Format.BinarySI).Add (NewQuantity o Format.BinarySI)).nano =
      (NewQuantity total Format.BinarySI).nano) : total < B + bound := by
  unfold Quantity.Add NewQuantity at h
  simp only at h
  have h3 : total = B + o := by
    rw [← add_mul] at h
    exact (mul_right_cancel₀ (by norm_num) h).symm
  rw [h3]
  exact add_lt_add_left ho _

/-- C4, as amended: with an explicit memory string that parses to `B` and no explicit overhead
string, `memoryRequiredForSparkPod` returns `B` plus an overhead of `max o 384Mi` bytes, where
`o = int64(float64(B) * f)` is computed in `float64` and `f` is the parsed factor string when
there is one and otherwise the `float64` constant `0.1` for the Java type and `0.4` for every
other type. The overhead is at least 384Mi whatever the factor, and it is an `int64`. When `B`
is an `int64` number `v` of bytes and the `float64` product `v * f` is finite with its
truncation toward zero `t` in the range of `int64`, `o` is `t`. The package-level variables
are not changed. -/
theorem memoryRequiredForSparkPod_overhead_floor (nm : Numerics) (g : Globals)
    (spec : SparkPodSpec) (memoryOverheadFactor : Option String) (appType : String)
    (s : String) (B : Quantity) (f : Float64)
    (hmem : spec.Memory = some s) (hB : parseJavaMemoryString s = .ok B)
    (hov : spec.MemoryOverhead = none)
    (hf : match memoryOverheadFactor with
      | some factor => nm.ParseFloat factor = some f
      | none => f = if appType = JavaApplicationType then Float64.round false 1 10
          else Float64.round false 4 10) :
    ∃ overhead : Int,
      memoryRequiredForSparkPod nm g spec memoryOverheadFactor appType =
        (.ok (.fresh (B.Add (NewQuantity overhead Format.BinarySI))), g) ∧
      overhead = max (overheadBytes nm B f) (384 * 2 ^ 20) ∧ 384 * 2 ^ 20 ≤ overhead ∧
      overhead < 2 ^ 63 ∧
      ∀ v t : Int, B.int64Value = some v →
        (Float64.mul (Float64.ofInt v) f).truncate = some t → overheadBytes nm B f = t := by
  refine ⟨max (overheadBytes nm B f) (384 * 2 ^ 20), ?_, rfl, le_max_right _ _,
    max_lt (overheadBytes_range nm B f).2 (by norm_num),
    fun v t hv ht => overheadBytes_of_truncate nm B f v t hv ht⟩
  have hfactor : overheadFactor nm memoryOverheadFactor appType = .ok f := by
    unfold overheadFactor
    cases memoryOverheadFactor with
    | none =>
      simp only at hf
      subst hf
      split_ifs <;> rfl
    | some factor =>
      simp only at hf
      simp only [hf]
  exact memoryRequiredForSparkPod_computed nm g spec memoryOverheadFactor appType s B f hmem hB
    hov hfactor

set_option maxRecDepth 100000 in
/-- The amended C4 at the memory string `100g` of a Java application without a factor string:
the `float64` product of 100Gi and `0.1` truncates to 10737418240, so the overhead is 10Gi and
the result 110Gi. -/
theorem memoryRequiredForSparkPod_overhead_floor_witness :
    memoryRequiredForSparkPod exampleNumerics Globals.initial
        { Cores := none, Memory := some "100g", MemoryOverhead := none, Sidecars := [],
          NodeSelector := none, Tolerations := [], Affinity := none, Labels := none,
          Annotations := none } none "Java" =
      (.ok (.fresh (NewQuantity (110 * 2 ^ 30) Format.BinarySI)), Globals.initial) := by
  obtain ⟨overhead, hresult, hmax, -, -, htrunc⟩ :=
    memoryRequiredForSparkPod_overhead_floor exampleNumerics Globals.initial
      { Cores := none, Memory := some "100g", MemoryOverhead := none, Sidecars := [],
        NodeSelector := none, Tolerations := [], Affinity := none, Labels := none,
        Annotations := none } none "Java" "100g"
      (NewQuantity (100 * 2 ^ 30) Format.BinarySI) (Float64.round false 1 10) rfl (by decide)
      rfl (by decide)
  rw [hresult, hmax, htrunc (100 * 2 ^ 30) (10 * 2 ^ 30) (by decide) (by decide)]
  decide

set_option maxRecDepth 100000 in
/-- C4 as stated fails at the memory string `1g` with the factor string `1e30`, which
`ParseFloat` reads as the `float64` `7105427357601002 * 2 ^ 47`. The claim's overhead
`trunc (B * f)` is `2 ^ 30` times that, above `2 ^ 63`. The code converts the `float64`
product to an `int64`: where the conversion yields the smallest `int64` the overhead is the
floor of 384Mi and the result 1408Mi, and on every implementation the result is below
`2 ^ 30 + 2 ^ 63` bytes, hence below the claim's figure. -/
theorem memoryRequiredForSparkPod_overhead_out_of_range :
    memoryRequiredForSparkPod exampleNumerics Globals.initial
        { Cores := none, Memory := some "1g", MemoryOverhead := none, Sidecars := [],
          NodeSelector := none, Tolerations := [], Affinity := none, Labels := none,
          Annotations := none } (some "1e30") "Java" =
      (.ok (.fresh (NewQuantity (1408 * 2 ^ 20) Format.BinarySI)), Globals.initial) ∧
    exampleNumerics.ParseFloat "1e30" = some (.finite 7105427357601002 47) ∧
    (2 ^ 30 + 2 ^ 63 : Int) ≤
      2 ^ 30 + max (2 ^ 30 * (7105427357601002 * 2 ^ 47)) (384 * 2 ^ 20) ∧
    ∀ nm : Numerics, nm.ParseFloat "1e30" = some (.finite 7105427357601002 47) →
      ∀ total : Int,
        (memoryRequiredForSparkPod nm Globals.initial
          { Cores := none, Memory := some "1g", MemoryOverhead := none, Sidecars := [],
            NodeSelector := none, Tolerations := [], Affinity := none, Labels := none,
            Annotations := none } (some "1e30") "Java").1 =
          .ok (.fresh (NewQuantity total Format.BinarySI)) →
        total < 2 ^ 30 + 2 ^ 63 := by
  refine ⟨by decide, by decide, by norm_num, fun nm hparse total htotal => ?_⟩
  have hfactor : overheadFactor nm (some "1e30") "Java" =
      .ok (.finite 7105427357601002 47) := by
    unfold overheadFactor
    simp only [hparse]
  rw [memoryRequiredForSparkPod_computed nm Globals.initial _ (some "1e30") "Java" "1g"
    (NewQuantity (2 ^ 30) Format.BinarySI) _ rfl (by decide) rfl hfactor] at htotal
  simp only [Except.ok.injEq, QuantityPtr.fresh.injEq] at htotal
  exact NewQuantity_lt_of_add _ _ _ _
    (max_lt (overheadBytes_range nm _ _).2 (by norm_num)) (congrArg Quantity.nano htotal)

/-- C5: with an explicit memory string that parses to `B` and an explicit overhead string
that parses to `V`, `memoryRequiredForSparkPod` returns exactly `B + V`, whatever the factor
string and the application type, and leaves the package-level variables as they are. -/
theorem memoryRequiredForSparkPod_explicit_overhead (nm : Numerics) (g : Globals)
    (spec : SparkPodSpec) (memoryOverheadFactor : Option String) (appType : String)
    (s t : String) (B V : Quantity)
    (hmem : spec.Memory = some s) (hB : parseJavaMemoryString s = .ok B)
    (hov : spec.MemoryOverhead = some t) (hV : parseJavaMemoryString t = .ok V) :
    memoryRequiredForSparkPod nm g spec memoryOverheadFactor appType =
      (.ok (.fresh (B.Add V)), g) := by
  unfold memoryRequiredForSparkPod memoryBytesPtr memoryOverheadBytes
  simp only [hmem, hB, hov, hV, QuantityPtr.load, QuantityPtr.Add]

/-- C5 at memory `1g` and overhead `100m`, with a factor string that is not a number: the
result is 1Gi + 100Mi, and the overhead of 100Mi is below 384Mi. -/
theorem memoryRequiredForSparkPod_explicit_overhead_witness :
    memoryRequiredForSparkPod exampleNumerics Globals.initial
        { Cores := none, Memory := some "1g", MemoryOverhead := some "100m", Sidecars := [],
          NodeSelector := none, Tolerations := [], Affinity := none, Labels := none,
          Annotations := none } (some "abc") "Python" =
      (.ok (.fresh ((NewQuantity (1 * 2 ^ 30) Format.BinarySI).Add
        (NewQuantity (100 * 2 ^ 20) Format.BinarySI))), Globals.initial) :=
  memoryRequiredForSparkPod_explicit_overhead exampleNumerics Globals.initial _ (some "abc")
    "Python" "1g" "100m" (NewQuantity (1 * 2 ^ 30) Format.BinarySI)
    (NewQuantity (100 * 2 ^ 20) Format.BinarySI) rfl (by rfl) rfl (by rfl)

/-! ## The package-level defaults -/

/-- C6 fails on `defaultMemoryApplication`, built from the initial values of the package-level
variables: the build succeeds, the driver group gets 1408Mi (1Gi + 384Mi), the executor
group, computed after it, gets 1792Mi (a base of 1408Mi, not of 1Gi), and `defaultMemoryBytes`
is left at 1792Mi. -/
theorem defaultMemoryBytes_changed_by_build :
    (DoBatchSchedulingOnSubmission exampleNumerics Globals.initial defaultMemoryApplication).err
        = none ∧
      (buildTaskGroups exampleNumerics Globals.initial defaultMemoryApplication).1 =
        .ok [{ Name := "spark-driver", MinMember := 1,
               MinResource := some [("cpu", "1"), ("memory", "1408Mi")],
               NodeSelector := none, Tolerations := [], Affinity := none, Labels := none },
             { Name := "spark-executor", MinMember := 1,
               MinResource := some [("cpu", "1"), ("memory", "1792Mi")],
               NodeSelector := none, Tolerations := [], Affinity := none, Labels := none }] ∧
      (DoBatchSchedulingOnSubmission exampleNumerics Globals.initial
          defaultMemoryApplication).globals.defaultMemoryBytes =
        NewQuantity (1792 * 2 ^ 20) Format.BinarySI ∧
      Globals.initial.defaultMemoryBytes = NewQuantity (1024 * 2 ^ 20) Format.BinarySI := by
  decide

/-! ## getInitialExecutors -/

/-- C7, as amended: `getInitialExecutors` returns the largest of 0, the executor instance
count, `minExecutors` and `initialExecutors`, each absent value (or an absent
dynamic-allocation block) counting as 0; `maxExecutors` does not occur in the result. -/
theorem getInitialExecutors_eq_max (app : SparkApplication) :
    getInitialExecutors app =
      max 0 (max (app.Spec.Executor.Instances.getD 0)
        (max ((app.Spec.DynamicAllocation.bind (fun d => d.MinExecutors)).getD 0)
          ((app.Spec.DynamicAllocation.bind (fun d => d.InitialExecutors)).getD 0))) := by
  obtain ⟨⟨ty, factor, selector, dynamic, options, driver, ⟨pod, instances⟩⟩⟩ := app
  cases instances <;> cases dynamic with
  | none =>
    simp only [getInitialExecutors, Option.getD, Option.bind]
    omega
  | some d =>
    obtain ⟨initial, minimum, maximum⟩ := d
    cases initial <;> cases minimum <;>
      simp only [getInitialExecutors, Option.getD, Option.bind] <;> omega

/-- C7 as stated fails when the three counts are present and negative: for instances,
`minExecutors` and `initialExecutors` all equal to -1 the function returns 0, and the largest of
the three is -1. -/
theorem getInitialExecutors_negative_counts :
    getInitialExecutors negativeCountsApplication = 0 ∧ max (-1 : Int) (max (-1) (-1)) ≠ 0 := by
  decide

/-! ## Lemmas on maps and on the scheduler -/

theorem StringMap.lookup_set_self (k v : String) (m : StringMap) :
    (StringMap.set k v m).lookup k = some v := by
  induction m with
  | nil => simp [StringMap.set, List.lookup]
  | cons e m ih =>
    obtain ⟨a, b⟩ := e
    by_cases h : a = k
    · simp [StringMap.set, h, List.lookup]
    · have hk : (k == a) = false := by
        simp only [beq_eq_false_iff_ne, ne_eq]
        exact fun hka => h hka.symm
      simp only [StringMap.set, h, if_false, List.lookup, hk]
      exact ih

theorem StringMap.lookup_set_ne {k k' : String} (h : k' ≠ k) (v : String) (m : StringMap) :
    (StringMap.set k v m).lookup k' = m.lookup k' := by
  induction m with
  | nil =>
    have hk : (k' == k) = false := by simpa using h
    simp [StringMap.set, List.lookup, hk]
  | cons e m ih =>
    obtain ⟨a, b⟩ := e
    by_cases ha : a = k
    · subst ha
      have hk : (k' == a) = false := by simpa using h
      simp [StringMap.set, List.lookup, hk]
    · simp only [StringMap.set, ha, if_false, List.lookup]
      cases (k' == a)
      · exact ih
      · rfl

theorem StringMap.set_eq_self {k v : String} {m : StringMap} (h : m.lookup k = some v) :
    StringMap.set k v m = m := by
  induction m with
  | nil => simp [List.lookup] at h
  | cons e m ih =>
    obtain ⟨a, b⟩ := e
    by_cases ha : a = k
    · subst ha
      simp only [List.lookup, beq_self_eq_true, Option.some.injEq] at h
      simp [StringMap.set, h]
    · have hk : (k == a) = false := by
        simp only [beq_eq_false_iff_ne, ne_eq]
        exact fun hka => ha hka.symm
      simp only [List.lookup, hk] at h
      simp only [StringMap.set, ha, if_false, ih h]

theorem getKey_assign_self (m : Option StringMap) (k v : String) :
    getKey (assign m k v) k = some v :=
  StringMap.lookup_set_self k v _

theorem getKey_assign_ne (m : Option StringMap) {k k' : String} (h : k' ≠ k) (v : String) :
    getKey (assign m k v) k' = getKey m k' := by
  cases m with
  | none =>
    simp only [assign, getKey, Option.getD]
    rw [StringMap.lookup_set_ne h]
    rfl
  | some entries => exact StringMap.lookup_set_ne h v entries

theorem assign_eq_self {m : Option StringMap} {k v : String} (h : getKey m k = some v) :
    assign m k v = m := by
  cases m with
  | none => simp [getKey] at h
  | some entries =>
    simp only [assign, Option.getD]
    rw [StringMap.set_eq_self h]

theorem jsonMarshal_eq (taskGroups : List taskGroup) :
    jsonMarshal taskGroups = .ok (marshalled taskGroups) := rfl

theorem addTaskGroupAnnotations_fst (app : SparkApplication) (taskGroups : List taskGroup) :
    (addTaskGroupAnnotations app taskGroups).1 = none := rfl

theorem DoBatchSchedulingOnSubmission_of_ok (nm : Numerics) (g : Globals)
    (app : SparkApplication) (taskGroups : List taskGroup)
    (h : (buildTaskGroups nm g app).1 = .ok taskGroups) :
    DoBatchSchedulingOnSubmission nm g app =
      { err := none, app := addQueueLabels (addTaskGroupAnnotations app taskGroups).2,
        globals := (buildTaskGroups nm g app).2 } := by
  unfold DoBatchSchedulingOnSubmission
  simp only [h, addTaskGroupAnnotations_fst]

theorem DoBatchSchedulingOnSubmission_of_error (nm : Numerics) (g : Globals)
    (app : SparkApplication) (err : Error)
    (h : (buildTaskGroups nm g app).1 = .error err) :
    DoBatchSchedulingOnSubmission nm g app =
      { err := some err, app := app, globals := (buildTaskGroups nm g app).2 } := by
  unfold DoBatchSchedulingOnSubmission
  simp only [h]

theorem buildTaskGroups_ok_of_success (nm : Numerics) (g : Globals) (app : SparkApplication)
    (h : (DoBatchSchedulingOnSubmission nm g app).err = none) :
    ∃ taskGroups, (buildTaskGroups nm g app).1 = .ok taskGroups := by
  cases hb : (buildTaskGroups nm g app).1 with
  | error err =>
    rw [DoBatchSchedulingOnSubmission_of_error nm g app err hb] at h
    simp at h
  | ok taskGroups => exact ⟨taskGroups, rfl⟩

theorem addQueueLabels_driver_annotations (app : SparkApplication) :
    (addQueueLabels app).Spec.Driver.SparkPodSpec.Annotations =
      app.Spec.Driver.SparkPodSpec.Annotations := by
  unfold addQueueLabels
  cases configuredQueue app <;> rfl

theorem addQueueLabels_executor_annotations (app : SparkApplication) :
    (addQueueLabels app).Spec.Executor.SparkPodSpec.Annotations =
      app.Spec.Executor.SparkPodSpec.Annotations := by
  unfold addQueueLabels
  cases configuredQueue app <;> rfl

theorem buildTaskGroups_shape (nm : Numerics) (g : Globals) (app : SparkApplication)
    (taskGroups : List taskGroup) (h : (buildTaskGroups nm g app).1 = .ok taskGroups) :
    (¬ 0 < getInitialExecutors app →
      ∃ driverMinResources, taskGroups = [driverTaskGroup app driverMinResources]) ∧
    (0 < getInitialExecutors app →
      ∃ driverMinResources executorMinResources,
        taskGroups = [driverTaskGroup app driverMinResources,
          executorTaskGroup app (getInitialExecutors app) executorMinResources]) := by
  unfold buildTaskGroups at h
  cases hd : (driverPodResourceUsage nm g app).1 with
  | error err => simp [hd] at h
  | ok driverMinResources =>
    simp only [hd, gt_iff_lt] at h
    by_cases hpos : 0 < getInitialExecutors app
    · simp only [hpos, if_true] at h
      cases he : (executorPodResourceUsage nm (driverPodResourceUsage nm g app).2 app).1 with
      | error err => simp [he] at h
      | ok executorMinResources =>
        simp only [he, Except.ok.injEq] at h
        exact ⟨fun hn => absurd hpos hn, fun _ => ⟨_, _, h.symm⟩⟩
    · simp only [hpos, if_false, Except.ok.injEq] at h
      exact ⟨fun _ => ⟨_, h.symm⟩, fun hp => absurd hp hpos⟩

/-! ## The task groups of a successful build -/

/-- C8: when `DoBatchSchedulingOnSubmission` succeeds, the driver annotation `task-groups`
holds the serialization of a list that is `[driver group]` when `getInitialExecutors` is 0
and `[driver group, executor group]`, in that order, when it is positive; the driver group has
name `spark-driver` and `minMember` 1, the executor group name `spark-executor` and
`minMember` equal to the count. -/
theorem DoBatchSchedulingOnSubmission_task_groups (nm : Numerics) (g : Globals)
    (app : SparkApplication) (h : (DoBatchSchedulingOnSubmission nm g app).err = none) :
    ∃ taskGroups : List taskGroup,
      (buildTaskGroups nm g app).1 = .ok taskGroups ∧
      getKey (DoBatchSchedulingOnSubmission nm g app).app.Spec.Driver.SparkPodSpec.Annotations
          TaskGroupsAnnotation = some (marshalled taskGroups) ∧
      (getInitialExecutors app = 0 →
        ∃ d, taskGroups = [d] ∧ d.Name = "spark-driver" ∧ d.MinMember = 1) ∧
      (0 < getInitialExecutors app →
        ∃ d e, taskGroups = [d, e] ∧ d.Name = "spark-driver" ∧ d.MinMember = 1 ∧
          e.Name = "spark-executor" ∧ e.MinMember = getInitialExecutors app) := by
  obtain ⟨taskGroups, hb⟩ := buildTaskGroups_ok_of_success nm g app h
  obtain ⟨h0, hpos⟩ := buildTaskGroups_shape nm g app taskGroups hb
  refine ⟨taskGroups, hb, ?_, ?_, ?_⟩
  · rw [DoBatchSchedulingOnSubmission_of_ok nm g app taskGroups hb]
    simp only [addQueueLabels_driver_annotations]
    exact getKey_assign_self _ _ _
  · intro hz
    obtain ⟨r, hr⟩ := h0 (by omega)
    exact ⟨_, hr, rfl, rfl⟩
  · intro hp
    obtain ⟨r, r', hr⟩ := hpos hp
    exact ⟨_, _, hr, rfl, rfl, rfl, rfl⟩

/-- C8 on `explicitApplication none`, which has one executor instance. -/
theorem DoBatchSchedulingOnSubmission_task_groups_witness :
    ∃ taskGroups : List taskGroup,
      (buildTaskGroups exampleNumerics Globals.initial (explicitApplication none)).1 =
        .ok taskGroups ∧
      getKey (DoBatchSchedulingOnSubmission exampleNumerics Globals.initial
          (explicitApplication none)).app.Spec.Driver.SparkPodSpec.Annotations
          TaskGroupsAnnotation = some (marshalled taskGroups) ∧
      (getInitialExecutors (explicitApplication none) = 0 →
        ∃ d, taskGroups = [d] ∧ d.Name = "spark-driver" ∧ d.MinMember = 1) ∧
      (0 < getInitialExecutors (explicitApplication none) →
        ∃ d e, taskGroups = [d, e] ∧ d.Name = "spark-driver" ∧ d.MinMember = 1 ∧
          e.Name = "spark-executor" ∧
          e.MinMember = getInitialExecutors (explicitApplication none)) :=
  DoBatchSchedulingOnSubmission_task_groups exampleNumerics Globals.initial
    (explicitApplication none) (by decide)

/-! ## Malformed strings abort the build -/

theorem memoryRequiredForSparkPod_malformed (nm : Numerics) (g : Globals) (spec : SparkPodSpec)
    (memoryOverheadFactor : Option String) (appType : String)
    (h : readsMalformed nm spec memoryOverheadFactor) :
    ∃ err, (memoryRequiredForSparkPod nm g spec memoryOverheadFactor appType).1 = .error err := by
  unfold memoryRequiredForSparkPod memoryBytesPtr
  rcases h with ⟨s, hs, err, herr⟩ | ⟨t, ht, err, herr⟩ | ⟨hnone, f, hf, hbad⟩
  · exact ⟨err, by simp only [hs, herr]⟩
  · cases hm : spec.Memory with
    | none =>
      refine ⟨err, ?_⟩
      simp only [memoryOverheadBytes, ht, herr]
    | some s =>
      cases hp : parseJavaMemoryString s with
      | error e => exact ⟨e, by simp only [hp]⟩
      | ok memory =>
        refine ⟨err, ?_⟩
        simp only [hp, memoryOverheadBytes, ht, herr]
  · have hfac : overheadFactor nm memoryOverheadFactor appType = .error (.numError f) := by
      simp only [overheadFactor, hf, hbad]
    cases hm : spec.Memory with
    | none =>
      refine ⟨.numError f, ?_⟩
      simp only [memoryOverheadBytes, hnone, hfac]
    | some s =>
      cases hp : parseJavaMemoryString s with
      | error e => exact ⟨e, by simp only [hp]⟩
      | ok memory =>
        refine ⟨.numError f, ?_⟩
        simp only [hp, memoryOverheadBytes, hnone, hfac]

theorem podResourceUsage_malformed (nm : Numerics) (g : Globals) (spec : SparkPodSpec)
    (memoryOverheadFactor : Option String) (appType : String)
    (h : readsMalformed nm spec memoryOverheadFactor) :
    ∃ err, (podResourceUsage nm g spec memoryOverheadFactor appType).1 = .error err := by
  obtain ⟨err, herr⟩ := memoryRequiredForSparkPod_malformed nm g spec memoryOverheadFactor
    appType h
  refine ⟨err, ?_⟩
  unfold podResourceUsage
  simp only [herr]

/-- C9, as amended: `DoBatchSchedulingOnSubmission` returns an error when a malformed string is
read, that is when the driver's memory or memory-overhead string is malformed, when the
factor string is malformed and the driver has no memory-overhead string, or when
`getInitialExecutors` is positive and the same holds of the executor. -/
theorem DoBatchSchedulingOnSubmission_malformed_aborts (nm : Numerics) (g : Globals)
    (app : SparkApplication)
    (h : readsMalformed nm app.Spec.Driver.SparkPodSpec app.Spec.MemoryOverheadFactor ∨
      (0 < getInitialExecutors app ∧
        readsMalformed nm app.Spec.Executor.SparkPodSpec app.Spec.MemoryOverheadFactor)) :
    ∃ err, (DoBatchSchedulingOnSubmission nm g app).err = some err := by
  have hbuild : ∃ err, (buildTaskGroups nm g app).1 = .error err := by
    simp only [buildTaskGroups]
    cases hd : (driverPodResourceUsage nm g app).1 with
    | error err => exact ⟨_, rfl⟩
    | ok driverMinResources =>
      rcases h with hdriver | ⟨hpos, hexec⟩
      · obtain ⟨err, herr⟩ := podResourceUsage_malformed nm g _ _ app.Spec.Type_ hdriver
        rw [driverPodResourceUsage, herr] at hd
        exact absurd hd (by simp)
      · obtain ⟨err, herr⟩ := podResourceUsage_malformed nm (driverPodResourceUsage nm g app).2
          _ _ app.Spec.Type_ hexec
        refine ⟨.wrapped "failed to calculate executor pod resource usage" err, ?_⟩
        simp only [gt_iff_lt, hpos, if_true, executorPodResourceUsage, herr]
  obtain ⟨err, herr⟩ := hbuild
  exact ⟨err, by rw [DoBatchSchedulingOnSubmission_of_error nm g app err herr]⟩

/-- The amended C9 on a driver whose memory string is `abc`. -/
theorem DoBatchSchedulingOnSubmission_malformed_aborts_witness :
    ∃ err, (DoBatchSchedulingOnSubmission exampleNumerics Globals.initial
      malformedDriverApplication).err = some err :=
  DoBatchSchedulingOnSubmission_malformed_aborts exampleNumerics Globals.initial
    malformedDriverApplication (Or.inl (Or.inl ⟨"abc", rfl, _, rfl⟩))

/-- C9 as stated fails on `unreadExecutorApplication`: the executor's memory string `lots` is
malformed, no executor is requested, and the build succeeds. -/
theorem DoBatchSchedulingOnSubmission_unread_executor_string :
    unreadExecutorApplication.Spec.Executor.SparkPodSpec.Memory = some "lots" ∧
      malformedMemory "lots" ∧
      (DoBatchSchedulingOnSubmission exampleNumerics Globals.initial
        unreadExecutorApplication).err = none :=
  ⟨rfl, ⟨_, rfl⟩, by decide⟩

/-! ## Builds that leave the package-level variables alone -/

theorem addSidecars_fresh (g : Globals) (cores memory : Quantity) (sidecars : List Container) :
    ∃ cores' memory', addSidecars g (.fresh cores) (.fresh memory) sidecars =
      (.fresh cores', .fresh memory', g) := by
  induction sidecars generalizing cores memory with
  | nil => exact ⟨cores, memory, rfl⟩
  | cons sidecar sidecars ih =>
    simp only [addSidecars, QuantityPtr.Add]
    exact ih _ _

theorem memoryRequiredForSparkPod_explicit_memory (nm : Numerics) (g : Globals)
    (spec : SparkPodSpec) (memoryOverheadFactor : Option String) (appType : String)
    (s : String) (hmem : spec.Memory = some s) :
    (memoryRequiredForSparkPod nm g spec memoryOverheadFactor appType).2 = g ∧
      ∀ p, (memoryRequiredForSparkPod nm g spec memoryOverheadFactor appType).1 = .ok p →
        ∃ q, p = .fresh q := by
  unfold memoryRequiredForSparkPod memoryBytesPtr
  simp only [hmem]
  cases parseJavaMemoryString s with
  | error err => exact ⟨rfl, fun p hp => by simp at hp⟩
  | ok memory =>
    simp only [QuantityPtr.load]
    cases memoryOverheadBytes nm memory spec memoryOverheadFactor appType with
    | error err => exact ⟨rfl, fun p hp => by simp at hp⟩
    | ok overhead =>
      refine ⟨rfl, fun p hp => ?_⟩
      simp only [QuantityPtr.Add, Except.ok.injEq] at hp
      exact ⟨_, hp.symm⟩

theorem podResourceUsage_explicit (nm : Numerics) (g : Globals) (spec : SparkPodSpec)
    (memoryOverheadFactor : Option String) (appType : String) (s : String) (cores : Int)
    (hmem : spec.Memory = some s) (hcores : spec.Cores = some cores) :
    (podResourceUsage nm g spec memoryOverheadFactor appType).2 = g := by
  obtain ⟨hg, hp⟩ := memoryRequiredForSparkPod_explicit_memory nm g spec memoryOverheadFactor
    appType s hmem
  unfold podResourceUsage
  cases hr : (memoryRequiredForSparkPod nm g spec memoryOverheadFactor appType).1 with
  | error err => simp only [hr, hg]
  | ok memory =>
    obtain ⟨q, rfl⟩ := hp memory hr
    simp only [hr, hg, coresRequiredForSparkPod, hcores]
    obtain ⟨c', m', h⟩ := addSidecars_fresh g (NewMilliQuantity (cores * 1000) Format.BinarySI)
      q spec.Sidecars
    rw [h]

/-- When both roles give their cores and their memory string, a build returns the
package-level variables as it found them, whether it succeeds or not. -/
theorem DoBatchSchedulingOnSubmission_explicit_globals (nm : Numerics) (g : Globals)
    (app : SparkApplication) (s t : String) (c d : Int)
    (hdm : app.Spec.Driver.SparkPodSpec.Memory = some s)
    (hdc : app.Spec.Driver.SparkPodSpec.Cores = some c)
    (hem : app.Spec.Executor.SparkPodSpec.Memory = some t)
    (hec : app.Spec.Executor.SparkPodSpec.Cores = some d) :
    (DoBatchSchedulingOnSubmission nm g app).globals = g := by
  have hd : (driverPodResourceUsage nm g app).2 = g :=
    podResourceUsage_explicit nm g _ _ _ s c hdm hdc
  have he : (executorPodResourceUsage nm g app).2 = g :=
    podResourceUsage_explicit nm g _ _ _ t d hem hec
  have hb : (buildTaskGroups nm g app).2 = g := by
    simp only [buildTaskGroups]
    cases h1 : (driverPodResourceUsage nm g app).1 with
    | error err => exact hd
    | ok driverMinResources =>
      simp only [hd]
      split_ifs
      · cases h2 : (executorPodResourceUsage nm g app).1 with
        | error err => exact he
        | ok executorMinResources => exact he
      · rfl
  cases h3 : (buildTaskGroups nm g app).1 with
  | error err =>
    rw [DoBatchSchedulingOnSubmission_of_error nm g app err h3]
    exact hb
  | ok taskGroups =>
    rw [DoBatchSchedulingOnSubmission_of_ok nm g app taskGroups h3]
    exact hb

/-! ## Invoking the build twice -/

theorem addQueueLabels_eq_self (app : SparkApplication) (h : queueLabelsInPlace app) :
    addQueueLabels app = app := by
  unfold addQueueLabels
  rcases h with h | ⟨queue, hq, hd, he⟩
  · simp only [h]
  · simp only [hq, assign_eq_self hd, assign_eq_self he]

theorem buildTaskGroups_addTaskGroupAnnotations (nm : Numerics) (g : Globals)
    (app : SparkApplication) (taskGroups : List taskGroup) :
    buildTaskGroups nm g (addTaskGroupAnnotations app taskGroups).2 =
      buildTaskGroups nm g app := rfl

theorem queueLabelsInPlace_addTaskGroupAnnotations (app : SparkApplication)
    (taskGroups : List taskGroup) (h : queueLabelsInPlace app) :
    queueLabelsInPlace (addTaskGroupAnnotations app taskGroups).2 := h

theorem addTaskGroupAnnotations_twice (app : SparkApplication) (taskGroups : List taskGroup) :
    (addTaskGroupAnnotations (addTaskGroupAnnotations app taskGroups).2 taskGroups).2 =
      (addTaskGroupAnnotations app taskGroups).2 := by
  have hne : TaskGroupNameAnnotation ≠ TaskGroupsAnnotation := by decide
  have hd : assign (assign (assign (assign app.Spec.Driver.SparkPodSpec.Annotations
      TaskGroupNameAnnotation DriverTaskGroupName) TaskGroupsAnnotation (marshalled taskGroups))
      TaskGroupNameAnnotation DriverTaskGroupName) TaskGroupsAnnotation (marshalled taskGroups) =
      assign (assign app.Spec.Driver.SparkPodSpec.Annotations
      TaskGroupNameAnnotation DriverTaskGroupName) TaskGroupsAnnotation
      (marshalled taskGroups) := by
    rw [assign_eq_self (m := assign (assign _ _ _) _ _) (k := TaskGroupNameAnnotation)
      (by rw [getKey_assign_ne _ hne, getKey_assign_self])]
    exact assign_eq_self (getKey_assign_self _ _ _)
  have he : assign (assign app.Spec.Executor.SparkPodSpec.Annotations
      TaskGroupNameAnnotation ExecutorTaskGroupName) TaskGroupNameAnnotation
      ExecutorTaskGroupName = assign app.Spec.Executor.SparkPodSpec.Annotations
      TaskGroupNameAnnotation ExecutorTaskGroupName :=
    assign_eq_self (getKey_assign_self _ _ _)
  simp only [addTaskGroupAnnotations, jsonMarshal_eq, hd, he]

/-- C10, as amended: when `DoBatchSchedulingOnSubmission` succeeds on a spec whose queue label
is already in place, and that call leaves the package-level variables as it found them,
invoking it again on the spec it produced succeeds and leaves the driver and executor
annotation maps as the first invocation wrote them. -/
theorem DoBatchSchedulingOnSubmission_twice (nm : Numerics) (g : Globals)
    (app : SparkApplication) (h : (DoBatchSchedulingOnSubmission nm g app).err = none)
    (hq : queueLabelsInPlace app)
    (hg : (DoBatchSchedulingOnSubmission nm g app).globals = g) :
    (DoBatchSchedulingOnSubmission nm (DoBatchSchedulingOnSubmission nm g app).globals
        (DoBatchSchedulingOnSubmission nm g app).app).err = none ∧
      (DoBatchSchedulingOnSubmission nm (DoBatchSchedulingOnSubmission nm g app).globals
          (DoBatchSchedulingOnSubmission nm g app).app).app.Spec.Driver.SparkPodSpec.Annotations =
        (DoBatchSchedulingOnSubmission nm g app).app.Spec.Driver.SparkPodSpec.Annotations ∧
      (DoBatchSchedulingOnSubmission nm (DoBatchSchedulingOnSubmission nm g app).globals
          (DoBatchSchedulingOnSubmission nm g app).app).app.Spec.Executor.SparkPodSpec.Annotations =
        (DoBatchSchedulingOnSubmission nm g app).app.Spec.Executor.SparkPodSpec.Annotations := by
  obtain ⟨taskGroups, hb⟩ := buildTaskGroups_ok_of_success nm g app h
  rw [hg]
  have h1 : DoBatchSchedulingOnSubmission nm g app =
      { err := none, app := (addTaskGroupAnnotations app taskGroups).2,
        globals := (buildTaskGroups nm g app).2 } := by
    rw [DoBatchSchedulingOnSubmission_of_ok nm g app taskGroups hb,
      addQueueLabels_eq_self _ (queueLabelsInPlace_addTaskGroupAnnotations app taskGroups hq)]
  have hb2 : (buildTaskGroups nm g (addTaskGroupAnnotations app taskGroups).2).1 =
      .ok taskGroups := by
    rw [buildTaskGroups_addTaskGroupAnnotations]
    exact hb
  have h2 : DoBatchSchedulingOnSubmission nm g (addTaskGroupAnnotations app taskGroups).2 =
      { err := none, app := (addTaskGroupAnnotations app taskGroups).2,
        globals := (buildTaskGroups nm g app).2 } := by
    rw [DoBatchSchedulingOnSubmission_of_ok nm g _ taskGroups hb2,
      addTaskGroupAnnotations_twice,
      addQueueLabels_eq_self _ (queueLabelsInPlace_addTaskGroupAnnotations app taskGroups hq),
      buildTaskGroups_addTaskGroupAnnotations]
  rw [h1]
  simp only [h2, and_self]

/-- The amended C10 on `explicitApplication none`: explicit cores, memory and overhead for both
roles, and no queue. -/
theorem DoBatchSchedulingOnSubmission_twice_witness :
    (DoBatchSchedulingOnSubmission exampleNumerics
        (DoBatchSchedulingOnSubmission exampleNumerics Globals.initial
          (explicitApplication none)).globals
        (DoBatchSchedulingOnSubmission exampleNumerics Globals.initial
          (explicitApplication none)).app).err = none ∧
      (DoBatchSchedulingOnSubmission exampleNumerics
          (DoBatchSchedulingOnSubmission exampleNumerics Globals.initial
            (explicitApplication none)).globals
          (DoBatchSchedulingOnSubmission exampleNumerics Globals.initial
            (explicitApplication none)).app).app.Spec.Driver.SparkPodSpec.Annotations =
        (DoBatchSchedulingOnSubmission exampleNumerics Globals.initial
          (explicitApplication none)).app.Spec.Driver.SparkPodSpec.Annotations ∧
      (DoBatchSchedulingOnSubmission exampleNumerics
          (DoBatchSchedulingOnSubmission exampleNumerics Globals.initial
            (explicitApplication none)).globals
          (DoBatchSchedulingOnSubmission exampleNumerics Globals.initial
            (explicitApplication none)).app).app.Spec.Executor.SparkPodSpec.Annotations =
        (DoBatchSchedulingOnSubmission exampleNumerics Globals.initial
          (explicitApplication none)).app.Spec.Executor.SparkPodSpec.Annotations :=
  DoBatchSchedulingOnSubmission_twice exampleNumerics Globals.initial (explicitApplication none)
    (by decide) (Or.inl rfl) (by decide)

set_option maxRecDepth 100000 in
/-- C10 as stated fails on `explicitApplication (some "research")`: both invocations succeed,
the first serializes the task groups without labels and then writes the queue label, and the
second serializes them with the label `queue`, so the driver annotation map changes. -/
theorem DoBatchSchedulingOnSubmission_twice_queue_label :
    (DoBatchSchedulingOnSubmission exampleNumerics Globals.initial
        (explicitApplication (some "research"))).err = none ∧
      (DoBatchSchedulingOnSubmission exampleNumerics
        (DoBatchSchedulingOnSubmission exampleNumerics Globals.initial
          (explicitApplication (some "research"))).globals
        (DoBatchSchedulingOnSubmission exampleNumerics Globals.initial
          (explicitApplication (some "research"))).app).err = none ∧
      (DoBatchSchedulingOnSubmission exampleNumerics
          (DoBatchSchedulingOnSubmission exampleNumerics Globals.initial
            (explicitApplication (some "research"))).globals
          (DoBatchSchedulingOnSubmission exampleNumerics Globals.initial
            (explicitApplication (some "research"))).app).app.Spec.Driver.SparkPodSpec.Annotations ≠
        (DoBatchSchedulingOnSubmission exampleNumerics Globals.initial
          (explicitApplication (some "research"))).app.Spec.Driver.SparkPodSpec.Annotations := by
  decide

/-! ## mergeMaps and the node selectors -/

theorem StringMap.copy_cons (dst : StringMap) (kv : String × String) (src : StringMap) :
    StringMap.copy dst (kv :: src) = StringMap.set kv.1 kv.2 (StringMap.copy dst src) := rfl

theorem StringMap.set_ne_nil (k v : String) (m : StringMap) : StringMap.set k v m ≠ [] := by
  cases m with
  | nil => simp [StringMap.set]
  | cons e m =>
    obtain ⟨a, b⟩ := e
    simp only [StringMap.set]
    split_ifs <;> simp

theorem StringMap.copy_eq_nil (dst src : StringMap) :
    StringMap.copy dst src = [] ↔ dst = [] ∧ src = [] := by
  cases src with
  | nil => simp [StringMap.copy]
  | cons kv src =>
    rw [StringMap.copy_cons]
    simp [StringMap.set_ne_nil]

theorem StringMap.lookup_copy (dst src : StringMap) (k : String) :
    (StringMap.copy dst src).lookup k =
      match src.lookup k with
      | some v => some v
      | none => dst.lookup k := by
  induction src with
  | nil => rfl
  | cons kv src ih =>
    obtain ⟨a, b⟩ := kv
    rw [StringMap.copy_cons]
    by_cases h : k = a
    · subst h
      simp [StringMap.lookup_set_self, List.lookup]
    · have hk : (k == a) = false := by simpa using h
      rw [StringMap.lookup_set_ne h, ih]
      simp only [List.lookup, hk]

theorem getKey_eq_lookup (m : Option StringMap) (k : String) :
    getKey m k = (m.getD []).lookup k := by
  cases m <;> rfl

theorem getKey_mergeMaps (m1 m2 : Option StringMap) (k : String) :
    getKey (mergeMaps m1 m2) k =
      match getKey m2 k with
      | some v => some v
      | none => getKey m1 k := by
  have hlookup : (StringMap.copy (StringMap.copy [] (m1.getD [])) (m2.getD [])).lookup k =
      match getKey m2 k with
      | some v => some v
      | none => getKey m1 k := by
    rw [StringMap.lookup_copy, StringMap.lookup_copy, getKey_eq_lookup m2, getKey_eq_lookup m1]
    cases (m2.getD []).lookup k with
    | some v => rfl
    | none =>
      cases (m1.getD []).lookup k <;> rfl
  unfold mergeMaps
  simp only
  split_ifs with h
  · rw [List.length_eq_zero] at h
    rw [← hlookup, h]
    rfl
  · exact hlookup

theorem mergeMaps_eq_none (m1 m2 : Option StringMap) :
    mergeMaps m1 m2 = none ↔ m1.getD [] = [] ∧ m2.getD [] = [] := by
  unfold mergeMaps
  simp only
  split_ifs with h
  · rw [List.length_eq_zero, StringMap.copy_eq_nil, StringMap.copy_eq_nil] at h
    simp [h.1.2, h.2]
  · rw [List.length_eq_zero, StringMap.copy_eq_nil, StringMap.copy_eq_nil] at h
    simp only [reduceCtorEq, false_iff]
    intro hh
    exact h ⟨⟨rfl, hh.1⟩, hh.2⟩

/-- C11: `mergeMaps m1 m2` is nil exactly when neither map has a key; otherwise it is a map
that has a key exactly when `m1` or `m2` has it and gives every key its value in `m2` when
`m2` has the key and its value in `m1` otherwise; and the node selectors of the task groups
of a build are `mergeMaps` of the workload selector with the driver's, then with the
executor's. -/
theorem mergeMaps_role_wins (nm : Numerics) (g : Globals) (app : SparkApplication)
    (m1 m2 : Option StringMap) :
    (mergeMaps m1 m2 = none ↔ m1.getD [] = [] ∧ m2.getD [] = []) ∧
    (∀ k, (getKey (mergeMaps m1 m2) k).isSome ↔
      (getKey m1 k).isSome ∨ (getKey m2 k).isSome) ∧
    (∀ k, getKey (mergeMaps m1 m2) k =
      match getKey m2 k with
      | some v => some v
      | none => getKey m1 k) ∧
    (∀ taskGroups, (buildTaskGroups nm g app).1 = .ok taskGroups →
      taskGroups.map (fun tg => tg.NodeSelector) =
        if 0 < getInitialExecutors app then
          [mergeMaps app.Spec.NodeSelector app.Spec.Driver.SparkPodSpec.NodeSelector,
           mergeMaps app.Spec.NodeSelector app.Spec.Executor.SparkPodSpec.NodeSelector]
        else [mergeMaps app.Spec.NodeSelector app.Spec.Driver.SparkPodSpec.NodeSelector]) := by
  refine ⟨mergeMaps_eq_none m1 m2, fun k => ?_, getKey_mergeMaps m1 m2, fun taskGroups h => ?_⟩
  · rw [getKey_mergeMaps]
    cases getKey m2 k <;> cases getKey m1 k <;> simp
  · obtain ⟨h0, hpos⟩ := buildTaskGroups_shape nm g app taskGroups h
    by_cases hp : 0 < getInitialExecutors app
    · obtain ⟨r, r', hr⟩ := hpos hp
      rw [hr, if_pos hp]
      rfl
    · obtain ⟨r, hr⟩ := h0 hp
      rw [hr, if_neg hp]
      rfl

/-- C11 on the maps of the spec's example: `a:1` merged with `a:2, b:3` gives `a:2, b:3`,
and two maps without keys give nil. -/
theorem mergeMaps_role_wins_witness :
    getKey (mergeMaps (some [("a", "1")]) (some [("a", "2"), ("b", "3")])) "a" = some "2" ∧
    getKey (mergeMaps (some [("a", "1")]) (some [("a", "2"), ("b", "3")])) "b" = some "3" ∧
    getKey (mergeMaps (some [("a", "1")]) (some [("a", "2"), ("b", "3")])) "c" = none ∧
    mergeMaps none (some []) = none :=
  ⟨(mergeMaps_role_wins exampleNumerics Globals.initial (explicitApplication none)
      (some [("a", "1")]) (some [("a", "2"), ("b", "3")])).2.2.1 "a",
   (mergeMaps_role_wins exampleNumerics Globals.initial (explicitApplication none)
      (some [("a", "1")]) (some [("a", "2"), ("b", "3")])).2.2.1 "b",
   (mergeMaps_role_wins exampleNumerics Globals.initial (explicitApplication none)
      (some [("a", "1")]) (some [("a", "2"), ("b", "3")])).2.2.1 "c",
   (mergeMaps_role_wins exampleNumerics Globals.initial (explicitApplication none)
      none (some [])).1.mpr ⟨rfl, rfl⟩⟩

/-! ## What a successful build writes -/

theorem DoBatchSchedulingOnSubmission_driver_annotations (nm : Numerics) (g : Globals)
    (app : SparkApplication) (taskGroups : List taskGroup)
    (h : (buildTaskGroups nm g app).1 = .ok taskGroups) :
    (DoBatchSchedulingOnSubmission nm g app).app.Spec.Driver.SparkPodSpec.Annotations =
      assign (assign app.Spec.Driver.SparkPodSpec.Annotations TaskGroupNameAnnotation
        DriverTaskGroupName) TaskGroupsAnnotation (marshalled taskGroups) := by
  rw [DoBatchSchedulingOnSubmission_of_ok nm g app taskGroups h]
  simp only [addQueueLabels_driver_annotations]
  rfl

theorem DoBatchSchedulingOnSubmission_executor_annotations (nm : Numerics) (g : Globals)
    (app : SparkApplication) (taskGroups : List taskGroup)
    (h : (buildTaskGroups nm g app).1 = .ok taskGroups) :
    (DoBatchSchedulingOnSubmission nm g app).app.Spec.Executor.SparkPodSpec.Annotations =
      assign app.Spec.Executor.SparkPodSpec.Annotations TaskGroupNameAnnotation
        ExecutorTaskGroupName := by
  rw [DoBatchSchedulingOnSubmission_of_ok nm g app taskGroups h]
  simp only [addQueueLabels_executor_annotations]
  rfl

/-- C12: after a successful `DoBatchSchedulingOnSubmission`, with or without an executor
group, the driver annotations have `task-group-name` set to `spark-driver` and `task-groups`
set to the serialized task-group list, the executor annotations have `task-group-name` set to
`spark-executor`, the executor's `task-groups` key has the value it had before, every other
key of both maps has the value it had before, and both maps exist. -/
theorem DoBatchSchedulingOnSubmission_annotations (nm : Numerics) (g : Globals)
    (app : SparkApplication) (h : (DoBatchSchedulingOnSubmission nm g app).err = none) :
    ∃ taskGroups : List taskGroup,
      (buildTaskGroups nm g app).1 = .ok taskGroups ∧
      getKey (DoBatchSchedulingOnSubmission nm g app).app.Spec.Driver.SparkPodSpec.Annotations
        TaskGroupNameAnnotation = some "spark-driver" ∧
      getKey (DoBatchSchedulingOnSubmission nm g app).app.Spec.Driver.SparkPodSpec.Annotations
        TaskGroupsAnnotation = some (marshalled taskGroups) ∧
      getKey (DoBatchSchedulingOnSubmission nm g app).app.Spec.Executor.SparkPodSpec.Annotations
        TaskGroupNameAnnotation = some "spark-executor" ∧
      getKey (DoBatchSchedulingOnSubmission nm g app).app.Spec.Executor.SparkPodSpec.Annotations
        TaskGroupsAnnotation =
          getKey app.Spec.Executor.SparkPodSpec.Annotations TaskGroupsAnnotation ∧
      (∀ k, k ≠ TaskGroupNameAnnotation → k ≠ TaskGroupsAnnotation →
        getKey (DoBatchSchedulingOnSubmission nm g app).app.Spec.Driver.SparkPodSpec.Annotations
          k = getKey app.Spec.Driver.SparkPodSpec.Annotations k) ∧
      (∀ k, k ≠ TaskGroupNameAnnotation →
        getKey (DoBatchSchedulingOnSubmission nm g app).app.Spec.Executor.SparkPodSpec.Annotations
          k = getKey app.Spec.Executor.SparkPodSpec.Annotations k) ∧
      (DoBatchSchedulingOnSubmission nm g app).app.Spec.Driver.SparkPodSpec.Annotations ≠ none ∧
      (DoBatchSchedulingOnSubmission nm g app).app.Spec.Executor.SparkPodSpec.Annotations ≠
        none := by
  obtain ⟨taskGroups, hb⟩ := buildTaskGroups_ok_of_success nm g app h
  have hne : TaskGroupNameAnnotation ≠ TaskGroupsAnnotation := by decide
  rw [DoBatchSchedulingOnSubmission_driver_annotations nm g app taskGroups hb,
    DoBatchSchedulingOnSubmission_executor_annotations nm g app taskGroups hb]
  refine ⟨taskGroups, hb, ?_, getKey_assign_self _ _ _, getKey_assign_self _ _ _,
    getKey_assign_ne _ hne.symm _, fun k h1 h2 => ?_, fun k h1 => getKey_assign_ne _ h1 _,
    by simp [assign], by simp [assign]⟩
  · rw [getKey_assign_ne _ hne, getKey_assign_self]
    rfl
  · rw [getKey_assign_ne _ h2, getKey_assign_ne _ h1]

/-- C12 on `explicitApplication none`, whose annotation maps are absent before the call. -/
theorem DoBatchSchedulingOnSubmission_annotations_witness :
    ∃ taskGroups : List taskGroup,
      (buildTaskGroups exampleNumerics Globals.initial (explicitApplication none)).1 =
        .ok taskGroups ∧
      getKey (DoBatchSchedulingOnSubmission exampleNumerics Globals.initial
        (explicitApplication none)).app.Spec.Driver.SparkPodSpec.Annotations
        TaskGroupNameAnnotation = some "spark-driver" ∧
      getKey (DoBatchSchedulingOnSubmission exampleNumerics Globals.initial
        (explicitApplication none)).app.Spec.Driver.SparkPodSpec.Annotations
        TaskGroupsAnnotation = some (marshalled taskGroups) ∧
      getKey (DoBatchSchedulingOnSubmission exampleNumerics Globals.initial
        (explicitApplication none)).app.Spec.Executor.SparkPodSpec.Annotations
        TaskGroupNameAnnotation = some "spark-executor" ∧
      getKey (DoBatchSchedulingOnSubmission exampleNumerics Globals.initial
        (explicitApplication none)).app.Spec.Executor.SparkPodSpec.Annotations
        TaskGroupsAnnotation =
          getKey (explicitApplication none).Spec.Executor.SparkPodSpec.Annotations
            TaskGroupsAnnotation ∧
      (∀ k, k ≠ TaskGroupNameAnnotation → k ≠ TaskGroupsAnnotation →
        getKey (DoBatchSchedulingOnSubmission exampleNumerics Globals.initial
          (explicitApplication none)).app.Spec.Driver.SparkPodSpec.Annotations
          k = getKey (explicitApplication none).Spec.Driver.SparkPodSpec.Annotations k) ∧
      (∀ k, k ≠ TaskGroupNameAnnotation →
        getKey (DoBatchSchedulingOnSubmission exampleNumerics Globals.initial
          (explicitApplication none)).app.Spec.Executor.SparkPodSpec.Annotations
          k = getKey (explicitApplication none).Spec.Executor.SparkPodSpec.Annotations k) ∧
      (DoBatchSchedulingOnSubmission exampleNumerics Globals.initial
        (explicitApplication none)).app.Spec.Driver.SparkPodSpec.Annotations ≠ none ∧
      (DoBatchSchedulingOnSubmission exampleNumerics Globals.initial
        (explicitApplication none)).app.Spec.Executor.SparkPodSpec.Annotations ≠ none :=
  DoBatchSchedulingOnSubmission_annotations exampleNumerics Globals.initial
    (explicitApplication none) (by decide)

theorem addQueueLabels_of_queue (app : SparkApplication) (queue : String)
    (h : configuredQueue app = some queue) :
    (addQueueLabels app).Spec.Driver.SparkPodSpec.Labels =
        assign app.Spec.Driver.SparkPodSpec.Labels QueueLabel queue ∧
      (addQueueLabels app).Spec.Executor.SparkPodSpec.Labels =
        assign app.Spec.Executor.SparkPodSpec.Labels QueueLabel queue := by
  unfold addQueueLabels
  simp only [h, and_self]

theorem addQueueLabels_of_no_queue (app : SparkApplication) (h : configuredQueue app = none) :
    addQueueLabels app = app := by
  unfold addQueueLabels
  simp only [h]

/-- C13: after a successful `DoBatchSchedulingOnSubmission` on a spec whose scheduler options
carry a queue name, both label maps hold that name under `queue`, whatever they held there
before, and every other label is unchanged; when the options block or its queue field is
absent, both label maps are as before the call. -/
theorem DoBatchSchedulingOnSubmission_labels (nm : Numerics) (g : Globals)
    (app : SparkApplication) (h : (DoBatchSchedulingOnSubmission nm g app).err = none) :
    (∀ options queue, app.Spec.BatchSchedulerOptions = some options →
      options.Queue = some queue →
      getKey (DoBatchSchedulingOnSubmission nm g app).app.Spec.Driver.SparkPodSpec.Labels
        QueueLabel = some queue ∧
      getKey (DoBatchSchedulingOnSubmission nm g app).app.Spec.Executor.SparkPodSpec.Labels
        QueueLabel = some queue ∧
      ∀ k, k ≠ QueueLabel →
        getKey (DoBatchSchedulingOnSubmission nm g app).app.Spec.Driver.SparkPodSpec.Labels k =
          getKey app.Spec.Driver.SparkPodSpec.Labels k ∧
        getKey (DoBatchSchedulingOnSubmission nm g app).app.Spec.Executor.SparkPodSpec.Labels k =
          getKey app.Spec.Executor.SparkPodSpec.Labels k) ∧
    ((app.Spec.BatchSchedulerOptions = none ∨
        ∃ options, app.Spec.BatchSchedulerOptions = some options ∧ options.Queue = none) →
      (DoBatchSchedulingOnSubmission nm g app).app.Spec.Driver.SparkPodSpec.Labels =
        app.Spec.Driver.SparkPodSpec.Labels ∧
      (DoBatchSchedulingOnSubmission nm g app).app.Spec.Executor.SparkPodSpec.Labels =
        app.Spec.Executor.SparkPodSpec.Labels) := by
  obtain ⟨taskGroups, hb⟩ := buildTaskGroups_ok_of_success nm g app h
  rw [DoBatchSchedulingOnSubmission_of_ok nm g app taskGroups hb]
  constructor
  · intro options queue ho hq
    have hc : configuredQueue (addTaskGroupAnnotations app taskGroups).2 = some queue := by
      show configuredQueue app = some queue
      simp only [configuredQueue, ho, hq]
    obtain ⟨hd, he⟩ := addQueueLabels_of_queue _ queue hc
    simp only [hd, he]
    refine ⟨getKey_assign_self _ _ _, getKey_assign_self _ _ _, fun k hk => ⟨?_, ?_⟩⟩
    · rw [getKey_assign_ne _ hk]
      rfl
    · rw [getKey_assign_ne _ hk]
      rfl
  · intro hnone
    have hc : configuredQueue (addTaskGroupAnnotations app taskGroups).2 = none := by
      show configuredQueue app = none
      rcases hnone with ho | ⟨options, ho, hq⟩
      · simp only [configuredQueue, ho]
      · simp only [configuredQueue, ho, hq]
    simp only [addQueueLabels_of_no_queue _ hc]
    exact ⟨rfl, rfl⟩

/-- C13 on `explicitApplication (some "research")`, whose label maps are absent before the
call. -/
theorem DoBatchSchedulingOnSubmission_labels_witness :
    getKey (DoBatchSchedulingOnSubmission exampleNumerics Globals.initial
        (explicitApplication (some "research"))).app.Spec.Driver.SparkPodSpec.Labels
        QueueLabel = some "research" ∧
      getKey (DoBatchSchedulingOnSubmission exampleNumerics Globals.initial
        (explicitApplication (some "research"))).app.Spec.Executor.SparkPodSpec.Labels
        QueueLabel = some "research" :=
  ⟨((DoBatchSchedulingOnSubmission_labels exampleNumerics Globals.initial
      (explicitApplication (some "research")) (by decide)).1 _ "research" rfl rfl).1,
   ((DoBatchSchedulingOnSubmission_labels exampleNumerics Globals.initial
      (explicitApplication (some "research")) (by decide)).1 _ "research" rfl rfl).2.1⟩

/-! ## The resource usage of a role -/

theorem addSidecars_load (sidecars : List Container) :
    ∀ (g : Globals) (cores memory : QuantityPtr),
      cores ≠ .defaultMemoryBytes → memory ≠ .defaultCpuMillicores →
      (addSidecars g cores memory sidecars).1.load (addSidecars g cores memory sidecars).2.2 =
          (sidecars.map cpuRequiredForSidecar).foldl Quantity.Add (cores.load g) ∧
        (addSidecars g cores memory sidecars).2.1.load
            (addSidecars g cores memory sidecars).2.2 =
          (sidecars.map memoryRequiredForSidecar).foldl Quantity.Add (memory.load g) := by
  induction sidecars with
  | nil => exact fun g cores memory _ _ => ⟨rfl, rfl⟩
  | cons sidecar sidecars ih =>
    intro g cores memory hc hm
    cases cores with
    | defaultMemoryBytes => exact absurd rfl hc
    | fresh c =>
      cases memory with
      | defaultCpuMillicores => exact absurd rfl hm
      | fresh m => exact ih g (.fresh _) (.fresh _) (by simp) (by simp)
      | defaultMemoryBytes => exact ih _ (.fresh _) .defaultMemoryBytes (by simp) (by simp)
    | defaultCpuMillicores =>
      cases memory with
      | defaultCpuMillicores => exact absurd rfl hm
      | fresh m => exact ih _ .defaultCpuMillicores (.fresh _) (by simp) (by simp)
      | defaultMemoryBytes =>
        exact ih _ .defaultCpuMillicores .defaultMemoryBytes (by simp) (by simp)

theorem memoryRequiredForSparkPod_result (nm : Numerics) (g : Globals) (spec : SparkPodSpec)
    (memoryOverheadFactor : Option String) (appType : String) (p : QuantityPtr)
    (h : (memoryRequiredForSparkPod nm g spec memoryOverheadFactor appType).1 = .ok p) :
    p ≠ .defaultCpuMillicores ∧
      (memoryRequiredForSparkPod nm g spec memoryOverheadFactor appType).2.defaultCpuMillicores =
        g.defaultCpuMillicores := by
  unfold memoryRequiredForSparkPod at h ⊢
  cases hm : memoryBytesPtr spec with
  | error err => simp [hm] at h
  | ok memoryBytes =>
    have hptr : memoryBytes ≠ .defaultCpuMillicores := by
      unfold memoryBytesPtr at hm
      cases hs : spec.Memory with
      | none =>
        simp only [hs, Except.ok.injEq] at hm
        rw [← hm]
        simp
      | some s =>
        simp only [hs] at hm
        cases hp : parseJavaMemoryString s with
        | error err => simp [hp] at hm
        | ok memory =>
          simp only [hp, Except.ok.injEq] at hm
          rw [← hm]
          simp
    simp only [hm] at h ⊢
    cases ho : memoryOverheadBytes nm (memoryBytes.load g) spec memoryOverheadFactor appType with
    | error err => simp [ho] at h
    | ok overhead =>
      simp only [ho, Except.ok.injEq] at h ⊢
      cases memoryBytes with
      | defaultCpuMillicores => exact absurd rfl hptr
      | fresh q =>
        rw [← h]
        exact ⟨by simp [QuantityPtr.Add], rfl⟩
      | defaultMemoryBytes =>
        rw [← h]
        exact ⟨by simp [QuantityPtr.Add], rfl⟩

theorem podResourceUsage_eq (nm : Numerics) (g : Globals) (spec : SparkPodSpec)
    (memoryOverheadFactor : Option String) (appType : String) (p : QuantityPtr)
    (h : (memoryRequiredForSparkPod nm g spec memoryOverheadFactor appType).1 = .ok p) :
    (podResourceUsage nm g spec memoryOverheadFactor appType).1 =
      .ok [(ResourceCPU,
          ((spec.Sidecars.map cpuRequiredForSidecar).foldl Quantity.Add
            (match spec.Cores with
              | some cores => NewMilliQuantity (cores * 1000) Format.BinarySI
              | none => g.defaultCpuMillicores)).String),
        (ResourceMemory,
          ((spec.Sidecars.map memoryRequiredForSidecar).foldl Quantity.Add
            (p.load (memoryRequiredForSparkPod nm g spec memoryOverheadFactor
              appType).2)).String)] := by
  obtain ⟨hp, hcpu⟩ := memoryRequiredForSparkPod_result nm g spec memoryOverheadFactor appType p h
  unfold podResourceUsage
  simp only [h, coresRequiredForSparkPod]
  cases hc : spec.Cores with
  | some cores =>
    simp only
    obtain ⟨h1, h2⟩ := addSidecars_load spec.Sidecars
      (memoryRequiredForSparkPod nm g spec memoryOverheadFactor appType).2
      (.fresh (NewMilliQuantity (cores * 1000) Format.BinarySI)) p (by simp) hp
    rw [h1, h2]
    rfl
  | none =>
    simp only
    obtain ⟨h1, h2⟩ := addSidecars_load spec.Sidecars
      (memoryRequiredForSparkPod nm g spec memoryOverheadFactor appType).2
      .defaultCpuMillicores p (by simp) hp
    rw [h1, h2]
    simp only [QuantityPtr.load, hcpu]

/-- C14: with the package-level variables at their initial values, whenever the memory
computation of the driver succeeds, `driverPodResourceUsage` returns the map with the two
keys `cpu` and `memory`: `cpu` is the canonical string of `cores * 1000` milli-cores (1000
milli-cores without a core count) plus the CPU requests of the driver's sidecars, `memory` the
canonical string of the result of `memoryRequiredForSparkPod` plus their memory requests, a
sidecar without a request adding the zero quantity; and `executorPodResourceUsage` returns
the same for the executor. -/
theorem podResourceUsage_cpu_memory (nm : Numerics) (app : SparkApplication) :
    (∀ p, (memoryRequiredForSparkPod nm Globals.initial app.Spec.Driver.SparkPodSpec
        app.Spec.MemoryOverheadFactor app.Spec.Type_).1 = .ok p →
      (driverPodResourceUsage nm Globals.initial app).1 =
        .ok [("cpu",
            ((app.Spec.Driver.SparkPodSpec.Sidecars.map cpuRequiredForSidecar).foldl Quantity.Add
              (match app.Spec.Driver.SparkPodSpec.Cores with
                | some cores => NewMilliQuantity (cores * 1000) Format.BinarySI
                | none => NewMilliQuantity 1000 Format.DecimalSI)).String),
          ("memory",
            ((app.Spec.Driver.SparkPodSpec.Sidecars.map memoryRequiredForSidecar).foldl
              Quantity.Add
              (p.load (memoryRequiredForSparkPod nm Globals.initial app.Spec.Driver.SparkPodSpec
                app.Spec.MemoryOverheadFactor app.Spec.Type_).2)).String)]) ∧
    (∀ p, (memoryRequiredForSparkPod nm Globals.initial app.Spec.Executor.SparkPodSpec
        app.Spec.MemoryOverheadFactor app.Spec.Type_).1 = .ok p →
      (executorPodResourceUsage nm Globals.initial app).1 =
        .ok [("cpu",
            ((app.Spec.Executor.SparkPodSpec.Sidecars.map cpuRequiredForSidecar).foldl
              Quantity.Add
              (match app.Spec.Executor.SparkPodSpec.Cores with
                | some cores => NewMilliQuantity (cores * 1000) Format.BinarySI
                | none => NewMilliQuantity 1000 Format.DecimalSI)).String),
          ("memory",
            ((app.Spec.Executor.SparkPodSpec.Sidecars.map memoryRequiredForSidecar).foldl
              Quantity.Add
              (p.load (memoryRequiredForSparkPod nm Globals.initial
                app.Spec.Executor.SparkPodSpec app.Spec.MemoryOverheadFactor
                app.Spec.Type_).2)).String)]) :=
  ⟨fun p h => podResourceUsage_eq nm Globals.initial _ _ _ p h,
   fun p h => podResourceUsage_eq nm Globals.initial _ _ _ p h⟩

/-- C14 on `sidecarApplication`: 1000 milli-cores plus 500 is `1500m`, and 1408Mi plus 256Mi
is `1664Mi`. -/
theorem podResourceUsage_cpu_memory_witness :
    (driverPodResourceUsage exampleNumerics Globals.initial sidecarApplication).1 =
      .ok [("cpu", "1500m"), ("memory", "1664Mi")] :=
  ((podResourceUsage_cpu_memory exampleNumerics sidecarApplication).1
    (.fresh ((NewQuantity (1 * 2 ^ 30) Format.BinarySI).Add
      (NewQuantity (384 * 2 ^ 20) Format.BinarySI))) (by decide)).trans (by decide)

/-! ## Scenario A -/

theorem scenario_strings :
    (NewMilliQuantity 1000 Format.DecimalSI).String = "1" ∧
      ((NewQuantity (2 ^ 30) Format.BinarySI).Add minMemoryOverhead).String = "1408Mi" := by
  decide

theorem driverPodResourceUsage_scenario (nm : Numerics) (app : SparkApplication)
    (htype : app.Spec.Type_ = JavaApplicationType)
    (hfactor : app.Spec.MemoryOverheadFactor = none)
    (hcores : app.Spec.Driver.SparkPodSpec.Cores = none)
    (hmemory : app.Spec.Driver.SparkPodSpec.Memory = none)
    (hoverhead : app.Spec.Driver.SparkPodSpec.MemoryOverhead = none)
    (hsidecars : app.Spec.Driver.SparkPodSpec.Sidecars = []) :
    (driverPodResourceUsage nm Globals.initial app).1 =
      .ok [("cpu", "1"), ("memory", "1408Mi")] := by
  have hover : memoryOverheadBytes nm (NewQuantity (2 ^ 30) Format.BinarySI)
      app.Spec.Driver.SparkPodSpec none JavaApplicationType = .ok minMemoryOverhead := by
    unfold memoryOverheadBytes overheadFactor
    simp only [hoverhead, if_true, overheadBytes_default nm]
    rfl
  obtain ⟨hcpu, hmem⟩ := scenario_strings
  unfold driverPodResourceUsage podResourceUsage memoryRequiredForSparkPod memoryBytesPtr
    coresRequiredForSparkPod
  simp only [htype, hfactor, hcores, hmemory, hsidecars, addSidecars, QuantityPtr.load,
    QuantityPtr.Add, Globals.initial, hover]
  rw [hcpu, hmem]
  rfl

/-- C15, as amended: for a workload of the Java type with no factor string whose driver has
no cores, memory, memory overhead or sidecars, built from the initial package-level values,
the driver's resource usage is `cpu: 1, memory: 1408Mi` (the overhead computed in `float64`
from 1Gi and `0.1` is 107374182 bytes, below the floor of 384Mi); when no executor is requested or the executor's usage
computation succeeds, `DoBatchSchedulingOnSubmission` succeeds; and whenever it succeeds the
driver task group comes first with exactly that `minResource`. -/
theorem DoBatchSchedulingOnSubmission_scenario (nm : Numerics) (app : SparkApplication)
    (htype : app.Spec.Type_ = JavaApplicationType)
    (hfactor : app.Spec.MemoryOverheadFactor = none)
    (hcores : app.Spec.Driver.SparkPodSpec.Cores = none)
    (hmemory : app.Spec.Driver.SparkPodSpec.Memory = none)
    (hoverhead : app.Spec.Driver.SparkPodSpec.MemoryOverhead = none)
    (hsidecars : app.Spec.Driver.SparkPodSpec.Sidecars = []) :
    (driverPodResourceUsage nm Globals.initial app).1 =
        .ok [("cpu", "1"), ("memory", "1408Mi")] ∧
      ((¬ 0 < getInitialExecutors app ∨
          ∃ usage, (executorPodResourceUsage nm
            (driverPodResourceUsage nm Globals.initial app).2 app).1 = .ok usage) →
        (DoBatchSchedulingOnSubmission nm Globals.initial app).err = none) ∧
      ((DoBatchSchedulingOnSubmission nm Globals.initial app).err = none →
        ∃ driverGroup others,
          (buildTaskGroups nm Globals.initial app).1 = .ok (driverGroup :: others) ∧
          driverGroup.Name = "spark-driver" ∧
          driverGroup.MinResource = some [("cpu", "1"), ("memory", "1408Mi")]) := by
  have hd := driverPodResourceUsage_scenario nm app htype hfactor hcores hmemory hoverhead
    hsidecars
  have hbuild : ∀ taskGroups, (buildTaskGroups nm Globals.initial app).1 = .ok taskGroups →
      ∃ others, taskGroups = driverTaskGroup app [("cpu", "1"), ("memory", "1408Mi")] ::
        others := by
    intro taskGroups hb
    simp only [buildTaskGroups, hd] at hb
    split_ifs at hb with hpos
    · cases he : (executorPodResourceUsage nm
          (driverPodResourceUsage nm Globals.initial app).2 app).1 with
      | error err => simp [he] at hb
      | ok usage =>
        simp only [he, Except.ok.injEq] at hb
        exact ⟨_, hb.symm⟩
    · simp only [Except.ok.injEq] at hb
      exact ⟨_, hb.symm⟩
  refine ⟨hd, fun hexec => ?_, fun hsuccess => ?_⟩
  · have hb : ∃ taskGroups, (buildTaskGroups nm Globals.initial app).1 = .ok taskGroups := by
      simp only [buildTaskGroups, hd]
      rcases hexec with hn | ⟨usage, hu⟩
      · simp only [gt_iff_lt, hn, if_false]
        exact ⟨_, rfl⟩
      · split_ifs
        · simp only [hu]
          exact ⟨_, rfl⟩
        · exact ⟨_, rfl⟩
    obtain ⟨taskGroups, hb⟩ := hb
    rw [DoBatchSchedulingOnSubmission_of_ok nm Globals.initial app taskGroups hb]
  · obtain ⟨taskGroups, hb⟩ := buildTaskGroups_ok_of_success nm Globals.initial app hsuccess
    obtain ⟨others, ho⟩ := hbuild taskGroups hb
    exact ⟨_, others, ho ▸ hb, rfl, rfl⟩

/-- The amended C15 on `scenarioApplication`: the build succeeds and the driver usage is
`cpu: 1, memory: 1408Mi`. -/
theorem DoBatchSchedulingOnSubmission_scenario_witness :
    (driverPodResourceUsage exampleNumerics Globals.initial scenarioApplication).1 =
        .ok [("cpu", "1"), ("memory", "1408Mi")] ∧
      (DoBatchSchedulingOnSubmission exampleNumerics Globals.initial scenarioApplication).err =
        none :=
  ⟨(DoBatchSchedulingOnSubmission_scenario exampleNumerics scenarioApplication rfl rfl rfl rfl rfl
      rfl).1,
    (DoBatchSchedulingOnSubmission_scenario exampleNumerics scenarioApplication rfl rfl rfl rfl rfl
      rfl).2.1 (Or.inl (by decide))⟩

set_option maxRecDepth 100000 in
/-- C15 as stated fails on `scenarioMalformedExecutorApplication`: its driver is the driver of
scenario A, and the build returns the error of the executor's memory string. -/
theorem DoBatchSchedulingOnSubmission_scenario_executor_error :
    scenarioMalformedExecutorApplication.Spec.Type_ = JavaApplicationType ∧
      scenarioMalformedExecutorApplication.Spec.MemoryOverheadFactor = none ∧
      scenarioMalformedExecutorApplication.Spec.Driver.SparkPodSpec =
        podSpecOf none none none ∧
      (DoBatchSchedulingOnSubmission exampleNumerics Globals.initial
        scenarioMalformedExecutorApplication).err =
        some (.wrapped "failed to calculate executor pod resource usage"
          (.parseError (javaMemoryErrorMessage "lots"))) := by
  decide

/-! ## parseJavaMemoryString: rejected and accepted inputs -/

theorem isDigit_ofNat_lower (n : Nat) (h1 : 65 ≤ n) (h2 : n ≤ 90) :
    isDigit (Char.ofNat (n + 32)) = false := by
  interval_cases n <;> rfl

theorem isDigit_toLowerChar (c : Char) : isDigit (toLowerChar c) = isDigit c := by
  unfold toLowerChar
  split_ifs with h1 h2
  · have hc : isDigit c = false := by simp [isDigit, h1]
    rw [hc]
    rfl
  · have hc : isDigit c = false := by simp [isDigit, h2]
    rw [hc]
    rfl
  · unfold Char.toLower
    dsimp only
    split_ifs with h3
    · have hc : isDigit c = false := by
        simp only [isDigit, decide_eq_false_iff_not]
        omega
      rw [hc]
      exact isDigit_ofNat_lower _ h3.1 h3.2
    · rfl

theorem javaStringPattern_no_digit (l : List Char) (h : ∀ c ∈ l, isDigit c = false) :
    javaStringPattern l = none := by
  induction l with
  | nil => rfl
  | cons c cs ih =>
    simp only [javaStringPattern, h c (List.mem_cons_self _ _), Bool.false_eq_true, if_false]
    exact ih (fun d hd => h d (List.mem_cons_of_mem _ hd))

theorem javaFractionStringPattern_no_digit (l : List Char) (h : ∀ c ∈ l, isDigit c = false) :
    javaFractionStringPattern l = none := by
  induction l with
  | nil => rfl
  | cons c cs ih =>
    have hc : isDigit c = false := h c (List.mem_cons_self _ _)
    have hat : fractionMatchAt (c :: cs) = none := by
      simp [fractionMatchAt, List.takeWhile_cons, hc]
    simp only [javaFractionStringPattern, hat]
    exact ih (fun d hd => h d (List.mem_cons_of_mem _ hd))

theorem ToLower_no_digit (l : List Char) (h : ∀ c ∈ l, isDigit c = false) :
    ∀ c ∈ ToLower l, isDigit c = false := by
  intro c hc
  simp only [ToLower, List.mem_map] at hc
  obtain ⟨d, hd, rfl⟩ := hc
  rw [isDigit_toLowerChar]
  exact h d hd

theorem isDigit_of_isLowerAZ {c : Char} (h : isLowerAZ c = true) : isDigit c = false := by
  simp only [isLowerAZ, decide_eq_true_eq] at h
  simp only [isDigit, decide_eq_false_iff_not]
  omega

theorem takeWhile_isLowerAZ_self (l : List Char) (h : ∀ c ∈ l, isLowerAZ c = true) :
    l.takeWhile isLowerAZ = l := by
  induction l with
  | nil => rfl
  | cons c cs ih =>
    rw [List.takeWhile_cons_of_pos (h c (List.mem_cons_self _ _)),
      ih (fun d hd => h d (List.mem_cons_of_mem _ hd))]

theorem takeWhile_isDigit_letters (l : List Char) (h : ∀ c ∈ l, isLowerAZ c = true) :
    l.takeWhile isDigit = [] ∧ l.dropWhile isDigit = l := by
  cases l with
  | nil => exact ⟨rfl, rfl⟩
  | cons c cs =>
    have hc : isDigit c = false := isDigit_of_isLowerAZ (h c (List.mem_cons_self _ _))
    simp [List.takeWhile_cons, List.dropWhile_cons, hc]

theorem javaMemorySuffixToScale_unrecognised (s : String) (h : s ∉ recognisedSuffixes) :
    javaMemorySuffixToScale s = none := by
  unfold javaMemorySuffixToScale
  rw [List.lookup_eq_none_iff]
  intro p hp
  simp only [recognisedSuffixes, List.mem_cons, List.mem_singleton, List.not_mem_nil, or_false,
    not_or] at h
  simp only [javaMemorySuffixToScaleTable, List.mem_cons, List.mem_singleton,
    List.not_mem_nil, or_false] at hp
  simp only [bne_iff_ne, ne_eq]
  rcases hp with rfl | rfl | rfl | rfl | rfl | rfl | rfl | rfl | rfl | rfl | rfl <;> tauto

theorem String.eq_mk_toList (str : String) (l : List Char) (h : str.toList = l) :
    str = String.mk l := by
  cases str
  simp only [String.toList] at h
  rw [h]

/-- C16: `parseJavaMemoryString` returns its error, whose message holds the input as
written, for every input without a decimal digit, and for every input
`digits ++ letters` or `digits ++ "." ++ digits ++ letters` whose letters in lower case are
not a recognised suffix. -/
theorem parseJavaMemoryString_rejects (str : String)
    (h : (∀ c ∈ str.toList, isDigit c = false) ∨
      (∃ ds letters, str.toList = ds ++ letters ∧ ds ≠ [] ∧
        (∀ c ∈ ds, isDigit c = true) ∧ (∀ c ∈ letters, isLowerAZ (toLowerChar c) = true) ∧
        String.mk (ToLower letters) ∉ recognisedSuffixes) ∨
      (∃ D F letters, str.toList = D ++ '.' :: (F ++ letters) ∧ D ≠ [] ∧ F ≠ [] ∧
        (∀ c ∈ D, isDigit c = true) ∧ (∀ c ∈ F, isDigit c = true) ∧
        (∀ c ∈ letters, isLowerAZ (toLowerChar c) = true) ∧
        String.mk (ToLower letters) ∉ recognisedSuffixes)) :
    parseJavaMemoryString str = .error (.parseError
      ("could not parse string '" ++ str ++
        "' as a Java-style memory value. Examples: 100kb, 1.5mb, 1g")) := by
  rcases h with hno | ⟨ds, letters, hstr, hne, hds, hletters, hsuf⟩ |
    ⟨D, F, letters, hstr, hne, -, hD, -, -, -⟩
  · have hlower := ToLower_no_digit str.toList hno
    unfold parseJavaMemoryString
    simp only [javaStringPattern_no_digit _ hlower, javaFractionStringPattern_no_digit _ hlower]
    rfl
  · have hL : ∀ c ∈ ToLower letters, isLowerAZ c = true := by
      intro c hc
      simp only [ToLower, List.mem_map] at hc
      obtain ⟨d, hd, rfl⟩ := hc
      exact hletters d hd
    obtain ⟨h1, h2⟩ := takeWhile_isDigit_letters _ hL
    unfold parseJavaMemoryString
    simp only [hstr, ToLower_append, ToLower_digits hds,
      javaStringPattern_digits_append hne hds, h1, h2, takeWhile_isLowerAZ_self _ hL,
      javaMemorySuffixToScale_unrecognised _ hsuf]
    rfl
  · rw [String.eq_mk_toList str _ hstr]
    exact parseJavaMemoryString_decimal_fails D (F ++ letters) hne hD

/-- C16 on the inputs `512x` (digits and an unrecognised letter) and `MB` (no digit). -/
theorem parseJavaMemoryString_rejects_witness :
    parseJavaMemoryString "512x" = .error (.parseError
        "could not parse string '512x' as a Java-style memory value. Examples: 100kb, 1.5mb, 1g") ∧
      parseJavaMemoryString "MB" = .error (.parseError
        "could not parse string 'MB' as a Java-style memory value. Examples: 100kb, 1.5mb, 1g") :=
  ⟨parseJavaMemoryString_rejects "512x"
      (Or.inr (Or.inl ⟨['5', '1', '2'], ['x'], rfl, by decide, by decide, by decide,
        by decide⟩)),
    parseJavaMemoryString_rejects "MB" (Or.inl (by decide))⟩

/-- C17 fails on inputs with characters around the literal: the patterns are not anchored,
so ` 512m`, `512m `, `x512m` and `512m 1g` all parse to 512Mi. -/
theorem parseJavaMemoryString_accepts_surrounding_text :
    parseJavaMemoryString " 512m" = .ok (NewQuantity (512 * 2 ^ 20) Format.BinarySI) ∧
      parseJavaMemoryString "512m " = .ok (NewQuantity (512 * 2 ^ 20) Format.BinarySI) ∧
      parseJavaMemoryString "x512m" = .ok (NewQuantity (512 * 2 ^ 20) Format.BinarySI) ∧
      parseJavaMemoryString "512m 1g" = .ok (NewQuantity (512 * 2 ^ 20) Format.BinarySI) := by
  decide

/-! ## parseJavaMemoryString: the sign of the result -/

theorem cappedAmount_nonneg (n e len : Nat) (format : Format) :
    (0 : Int) ≤
      if format = Format.BinarySI ∧
          maxAllowed * 10 ^ 9 < - ((- ((n : Int) * 2 ^ e * 10 ^ 9)) / (10 ^ len : Int))
        then maxAllowed * 10 ^ 9
        else - ((- ((n : Int) * 2 ^ e * 10 ^ 9)) / (10 ^ len : Int)) := by
  have hscaled : (0 : Int) ≤ (n : Int) * 2 ^ e * 10 ^ 9 := by positivity
  have hdiv := Int.ediv_le_ediv (show (0 : Int) < 10 ^ len by positivity)
    (neg_nonpos.mpr hscaled)
  rw [Int.zero_ediv] at hdiv
  have hmax : (0 : Int) ≤ maxAllowed * 10 ^ 9 := by
    unfold maxAllowed
    norm_num
  split_ifs
  · exact hmax
  · omega

theorem parseUnsignedQuantity_nonneg (str : List Char) (q : Quantity)
    (h : parseUnsignedQuantity str = .ok q) : 0 ≤ q.nano := by
  unfold parseUnsignedQuantity at h
  simp only at h
  generalize (if (List.dropWhile isDigit str).head? = some '.'
    then List.takeWhile isDigit (List.dropWhile isDigit str).tail else []) = denom at h
  generalize (if (List.dropWhile isDigit str).head? = some '.'
    then List.dropWhile isDigit (List.dropWhile isDigit str).tail
    else List.dropWhile isDigit str) = suf at h
  by_cases hempty : List.takeWhile isDigit str = [] ∧ denom = []
  · rw [if_pos hempty] at h
    exact absurd h (by simp)
  · rw [if_neg hempty] at h
    cases hi : interpretSuffix suf with
    | none => simp [hi] at h
    | some fe =>
      obtain ⟨format, exponent⟩ := fe
      simp only [hi, Except.ok.injEq] at h
      rw [← h]
      exact cappedAmount_nonneg _ exponent denom.length format

theorem head_takeWhile_isDigit (l : List Char) (h : l.takeWhile isDigit ≠ []) :
    ∃ d, (l.takeWhile isDigit).head? = some d ∧ isDigit d = true := by
  cases l with
  | nil => exact absurd rfl h
  | cons c cs =>
    by_cases hc : isDigit c = true
    · exact ⟨c, by rw [List.takeWhile_cons_of_pos hc]; rfl, hc⟩
    · rw [List.takeWhile_cons_of_neg hc] at h
      exact absurd rfl h

theorem javaStringPattern_value_head (l value suffix : List Char)
    (h : javaStringPattern l = some (value, suffix)) :
    ∃ d, value.head? = some d ∧ isDigit d = true := by
  induction l with
  | nil => simp [javaStringPattern] at h
  | cons c cs ih =>
    by_cases hc : isDigit c = true
    · simp only [javaStringPattern, hc, if_true, Option.some.injEq, Prod.mk.injEq] at h
      rw [← h.1, List.takeWhile_cons_of_pos hc]
      exact ⟨c, rfl, hc⟩
    · simp only [javaStringPattern, hc, Bool.false_eq_true, if_false] at h
      exact ih h

theorem javaFractionStringPattern_value_head (l value suffix : List Char)
    (h : javaFractionStringPattern l = some (value, suffix)) :
    ∃ d, value.head? = some d ∧ isDigit d = true := by
  induction l with
  | nil => simp [javaFractionStringPattern] at h
  | cons c cs ih =>
    simp only [javaFractionStringPattern] at h
    cases hat : fractionMatchAt (c :: cs) with
    | none =>
      simp only [hat] at h
      exact ih h
    | some m =>
      simp only [hat, Option.some.injEq] at h
      subst h
      unfold fractionMatchAt at hat
      simp only at hat
      split_ifs at hat with hcond
      simp only [Option.some.injEq, Prod.mk.injEq] at hat
      obtain ⟨d, hd, hdig⟩ := head_takeWhile_isDigit (c :: cs) hcond.2.1
      refine ⟨d, ?_, hdig⟩
      rw [← hat.1]
      cases htw : List.takeWhile isDigit (c :: cs) with
      | nil => exact absurd htw hcond.2.1
      | cons x xs =>
        rw [htw] at hd
        exact hd

theorem ParseQuantity_value_nonneg (value scale : List Char) (q : Quantity) (d : Char)
    (hhead : value.head? = some d) (hd : isDigit d = true)
    (h : ParseQuantity (value ++ scale) = .ok q) : 0 ≤ q.nano := by
  have hh : (value ++ scale).head? = some d := by
    cases value with
    | nil => simp at hhead
    | cons x xs => exact hhead
  rw [ParseQuantity_of_digit_head hh hd] at h
  exact parseUnsignedQuantity_nonneg _ q h

/-- C20: whenever `parseJavaMemoryString` succeeds the quantity it returns is not negative;
only the digits and the suffix reach `ParseQuantity`, never a sign before them. -/
theorem parseJavaMemoryString_nonneg (str : String) (q : Quantity)
    (h : parseJavaMemoryString str = .ok q) : 0 ≤ q.nano := by
  unfold parseJavaMemoryString at h
  dsimp only at h
  split at h
  · rename_i value suffix hpat
    obtain ⟨d, hhead, hd⟩ := javaStringPattern_value_head _ value suffix hpat
    split at h
    · exact ParseQuantity_value_nonneg value _ q d hhead hd h
    · exact absurd h (by simp)
  · split at h
    · rename_i value suffix hfrac
      obtain ⟨d, hhead, hd⟩ := javaFractionStringPattern_value_head _ value suffix hfrac
      split at h
      · exact ParseQuantity_value_nonneg value _ q d hhead hd h
      · exact absurd h (by simp)
    · exact absurd h (by simp)

/-- C20 on `-512m`: the call returns 512Mi, which is not negative. -/
theorem parseJavaMemoryString_nonneg_witness :
    parseJavaMemoryString "-512m" = .ok (NewQuantity (512 * 2 ^ 20) Format.BinarySI) ∧
      0 ≤ (NewQuantity (512 * 2 ^ 20) Format.BinarySI).nano :=
  ⟨by decide, parseJavaMemoryString_nonneg "-512m" _ (by decide)⟩

/-! ## No group without members, and no write on failure -/

/-- C18: when `DoBatchSchedulingOnSubmission` succeeds, every task group of the serialized
list has `minMember` at least 1, whatever the instance count, `minExecutors` and
`initialExecutors` are. -/
theorem DoBatchSchedulingOnSubmission_minMember (nm : Numerics) (g : Globals)
    (app : SparkApplication) (h : (DoBatchSchedulingOnSubmission nm g app).err = none) :
    ∃ taskGroups : List taskGroup,
      (buildTaskGroups nm g app).1 = .ok taskGroups ∧
      getKey (DoBatchSchedulingOnSubmission nm g app).app.Spec.Driver.SparkPodSpec.Annotations
        TaskGroupsAnnotation = some (marshalled taskGroups) ∧
      ∀ tg ∈ taskGroups, 1 ≤ tg.MinMember := by
  obtain ⟨taskGroups, hb⟩ := buildTaskGroups_ok_of_success nm g app h
  obtain ⟨h0, hpos⟩ := buildTaskGroups_shape nm g app taskGroups hb
  refine ⟨taskGroups, hb, ?_, ?_⟩
  · rw [DoBatchSchedulingOnSubmission_driver_annotations nm g app taskGroups hb]
    exact getKey_assign_self _ _ _
  · intro tg htg
    by_cases hp : 0 < getInitialExecutors app
    · obtain ⟨r, r', hr⟩ := hpos hp
      rw [hr] at htg
      simp only [List.mem_cons, List.mem_singleton, List.not_mem_nil, or_false] at htg
      rcases htg with rfl | rfl
      · exact le_refl _
      · simp only [executorTaskGroup]
        omega
    · obtain ⟨r, hr⟩ := h0 hp
      rw [hr] at htg
      simp only [List.mem_singleton] at htg
      rw [htg]
      exact le_refl _

/-- C18 on `negativeInstancesApplication`, whose instance count is -3: the list is the driver
group alone. -/
theorem DoBatchSchedulingOnSubmission_minMember_witness :
    ∃ taskGroups : List taskGroup,
      (buildTaskGroups exampleNumerics Globals.initial negativeInstancesApplication).1 =
        .ok taskGroups ∧
      getKey (DoBatchSchedulingOnSubmission exampleNumerics Globals.initial
        negativeInstancesApplication).app.Spec.Driver.SparkPodSpec.Annotations
        TaskGroupsAnnotation = some (marshalled taskGroups) ∧
      ∀ tg ∈ taskGroups, 1 ≤ tg.MinMember :=
  DoBatchSchedulingOnSubmission_minMember exampleNumerics Globals.initial
    negativeInstancesApplication (by decide)

/-- C19: whenever `DoBatchSchedulingOnSubmission` returns an error, the workload spec is the
spec before the call, annotation and label maps of both roles included. -/
theorem DoBatchSchedulingOnSubmission_error_keeps_spec (nm : Numerics) (g : Globals)
    (app : SparkApplication) (h : (DoBatchSchedulingOnSubmission nm g app).err ≠ none) :
    (DoBatchSchedulingOnSubmission nm g app).app = app := by
  cases hb : (buildTaskGroups nm g app).1 with
  | error err => rw [DoBatchSchedulingOnSubmission_of_error nm g app err hb]
  | ok taskGroups =>
    rw [DoBatchSchedulingOnSubmission_of_ok nm g app taskGroups hb] at h
    exact absurd rfl h

/-- C19 on `malformedExecutorApplication`: the driver's usage is computed, the executor's
memory string fails, and the spec is returned as it was. -/
theorem DoBatchSchedulingOnSubmission_error_keeps_spec_witness :
    (DoBatchSchedulingOnSubmission exampleNumerics Globals.initial
        malformedExecutorApplication).err ≠ none ∧
      (DoBatchSchedulingOnSubmission exampleNumerics Globals.initial
        malformedExecutorApplication).app = malformedExecutorApplication :=
  ⟨by decide, DoBatchSchedulingOnSubmission_error_keeps_spec exampleNumerics Globals.initial
    malformedExecutorApplication (by decide)⟩

end Yunikorn
